import Mathlib

/-!
Shallow embedding of the automatic_shallot2 synthesizer core
(src/main.py, src/oscillator.py, src/sequencer_ui.py).

Modelling conventions:
* Python floats are modelled exactly: every control value the program ever
  holds (UI parameters, frequencies, tempo arithmetic) is a rational number,
  so those are embedded as ℚ; audio sample values pass through Real.sin and
  irrational powers, so sample buffers are List ℝ.
* `int(x)` (Python truncation toward zero) is `pyIntQ`.
* numpy buffers are Lists; `buf[:n] += g` is `addInto`.
* Oscillator/ChordGenerator mutation is embedded by explicit state passing:
  `generate_samples` returns the buffer together with the post-call
  oscillator (the source assigns `self.current_pan = self.pan` before
  returning), and `generate_chord` returns the post-call generator.
-/

/-- Python `int(x)` for a rational: truncation toward zero. -/
def pyIntQ (x : ℚ) : ℤ :=
  if 0 ≤ x then ⌊x⌋ else ⌈x⌉

/-- Normalize a (possibly negative) Python index to a plain offset. -/
def normIdx (len : ℕ) (i : ℤ) : ℤ :=
  if i < 0 then (len : ℤ) + i else i

/-- Python list indexing with negative-index wrapping,
returning `none` where CPython would raise `IndexError`. -/
def pyGet {α : Type} (l : List α) (i : ℤ) : Option α :=
  if normIdx l.length i < 0 then none else l.get? (normIdx l.length i).toNat

/-- Index-aware map (our own, so we control the defining equations). -/
def mapIdxFrom {α β : Type} (f : ℕ → α → β) : ℕ → List α → List β
  | _, [] => []
  | i, x :: xs => f i x :: mapIdxFrom f (i + 1) xs

/-- `np.linspace a b k` evaluated at position `j` (`j < k`);
`np.linspace a b 1 = [a]`. -/
def linspaceVal (a b : ℚ) (k : ℤ) (j : ℤ) : ℚ :=
  if k = 1 then a else a + j * (b - a) / ((k : ℚ) - 1)

/-- `num_samples = int(sample_rate * duration_ms / 1000)` at the fixed
44100 Hz rate used throughout the source. -/
def numSamples (ms : ℕ) : ℕ :=
  44100 * ms / 1000

/-- One harmonic of a "custom" waveform definition:
`{frequency multiplier, amplitude}`. -/
structure Harmonic where
  frequency : ℚ
  amplitude : ℚ
deriving DecidableEq

/-- A waveform-definition table entry (`oscillator.py`): the `type` tag with
its payload. `unknown` stands for a malformed/unrecognized `type`, which the
source leaves as a zero buffer. -/
inductive WaveDef where
  | basic
  | custom (harmonics : List Harmonic)
  | sculpted (points : List ℚ)
  | unknown
deriving DecidableEq

/-- `Oscillator.__init__` state (src/oscillator.py). `current_pan` is the
attribute assigned by `generate_samples`; it does not exist before the first
render, hence `Option`. -/
structure Oscillator where
  name : String
  waveform : String
  frequency : ℚ
  amplitude : ℚ
  phase : ℚ
  enabled : Bool
  detune : ℚ
  attack : ℚ
  decay : ℚ
  sustain : ℚ
  release : ℚ
  filter_cutoff : ℚ
  filter_resonance : ℚ
  pan : ℚ
  eq_gains : List ℚ
  waveform_definitions : List (String × WaveDef)
  is_live_editing : Bool
  live_edit_points : List ℚ
  current_pan : Option ℚ
deriving DecidableEq

/-- `_get_default_waveforms` (the table used when no
waveform_definitions.json file is present). -/
def defaultWaveforms : List (String × WaveDef) :=
  [("sine", WaveDef.basic), ("square", WaveDef.basic),
   ("sawtooth", WaveDef.basic), ("triangle", WaveDef.basic)]

/-- The `Oscillator()` constructor defaults. -/
def defaultOscillator : Oscillator where
  name := ""
  waveform := "sine"
  frequency := 440
  amplitude := 1/2
  phase := 0
  enabled := true
  detune := 0
  attack := 1/10
  decay := 1/10
  sustain := 7/10
  release := 3/10
  filter_cutoff := 1
  filter_resonance := 0
  pan := 1/2
  eq_gains := List.replicate 8 0
  waveform_definitions := defaultWaveforms
  is_live_editing := false
  live_edit_points := []
  current_pan := none

/-- Dictionary lookup in a definitions table. -/
def lookupDef (tbl : List (String × WaveDef)) (k : String) : Option WaveDef :=
  (tbl.find? (fun p => p.1 == k)).map (fun p => p.2)

/-- `self.waveform_definitions.get(self.waveform,
self.waveform_definitions.get("sine"))`. -/
def lookupWaveDef (osc : Oscillator) : Option WaveDef :=
  (lookupDef osc.waveform_definitions osc.waveform).orElse
    (fun _ => lookupDef osc.waveform_definitions "sine")

/-- `time_vector[i]` for `np.linspace(0, duration_ms/1000, n, endpoint=False)`. -/
noncomputable def timeVal (duration_ms n i : ℕ) : ℝ :=
  ((duration_ms : ℝ) / 1000) * i / n

/-- The four closed-form basic waveforms of `generate_samples`, selected by
the oscillator's `waveform` NAME (an unknown name falls back to the sine
formula), already scaled by `amplitude`. -/
noncomputable def basicSample (waveform : String) (amp phase : ℚ) (freq t : ℝ) : ℝ :=
  (if waveform = "sine" then Real.sin (2 * Real.pi * freq * t + phase)
   else if waveform = "square" then Real.sign (Real.sin (2 * Real.pi * freq * t + phase))
   else if waveform = "sawtooth" then 2 * (freq * t - ⌊(1/2 : ℝ) + freq * t⌋)
   else if waveform = "triangle" then 2 * |2 * (freq * t - ⌊(1/2 : ℝ) + freq * t⌋)| - 1
   else Real.sin (2 * Real.pi * freq * t + phase)) * amp

/-- Peak absolute value of a buffer, as `np.max(np.abs(l))` (0 on the empty
buffer, where numpy would raise; every guarded use site has a nonempty or
nonzero buffer). -/
noncomputable def maxAbs (l : List ℝ) : ℝ :=
  (l.map (fun x => |x|)).foldr max 0

/-- The "custom" harmonic-sum branch of `generate_samples`: sum the
harmonics, normalize by the peak when any harmonics exist (guarding peak 0),
then scale by `amplitude`. -/
noncomputable def customSamples (hs : List Harmonic) (amp phase : ℚ)
    (duration_ms n : ℕ) (freq : ℝ) : List ℝ :=
  let raw := (List.range n).map (fun i =>
    (hs.map (fun h =>
      (h.amplitude : ℝ) *
        Real.sin (2 * Real.pi * (freq * (h.frequency : ℝ)) * timeVal duration_ms n i
          + (phase : ℝ)))).sum)
  let raw2 :=
    if hs = [] then raw
    else
      let m := maxAbs raw
      if 0 < m then raw.map (fun x => x / m) else raw
  raw2.map (fun x => x * (amp : ℝ))

/-- `np.interp` of a cycle position `u ∈ [0,1)` against the closed point
array (first point appended, x-grid `np.linspace 0 1 (N+1)`). -/
noncomputable def interpCycle (pts : List ℚ) (u : ℝ) : ℝ :=
  let N := pts.length
  let s := u * N
  let j := (⌊s⌋).toNat
  let closed := (pts ++ [pts.headD 0]).map (fun q => (q : ℝ))
  closed.getD j 0 + (s - (j : ℝ)) * (closed.getD (j + 1) 0 - closed.getD j 0)

/-- Cycle-point synthesis (live-edit override and "sculpted" definitions):
a single point yields a DC buffer; otherwise the per-sample phase
`(t·freq) mod 1` is interpolated against the closed cycle. Scaled by
`amplitude` afterwards (`samples *= self.amplitude`). -/
noncomputable def pointSamples (pts : List ℚ) (amp : ℚ)
    (duration_ms n : ℕ) (freq : ℝ) : List ℝ :=
  if pts.length = 1 then
    (List.replicate n ((pts.headD 0 : ℚ) : ℝ)).map (fun x => x * (amp : ℝ))
  else
    ((List.range n).map
        (fun i => interpCycle pts (Int.fract (timeVal duration_ms n i * freq)))).map
      (fun x => x * (amp : ℝ))

/-- The raw (pre-envelope) buffer of `generate_samples`: live-edit override
when active and non-empty, else the waveform-definition branch. An absent
definition for both the selection and "sine" behaves as `{"type":"basic"}`
(the source's ultimate fallback), i.e. the name-dispatched basic formula.
A "sculpted" entry with an empty point list and an `unknown` type leave the
zero buffer (amplitude is not applied there, as in the source). -/
noncomputable def rawSamples (osc : Oscillator) (duration_ms n : ℕ)
    (actual_freq : ℝ) : List ℝ :=
  if osc.is_live_editing = true ∧ osc.live_edit_points ≠ [] then
    pointSamples osc.live_edit_points osc.amplitude duration_ms n actual_freq
  else
    match lookupWaveDef osc with
    | some (WaveDef.sculpted pts) =>
        if pts ≠ [] then pointSamples pts osc.amplitude duration_ms n actual_freq
        else List.replicate n 0
    | some (WaveDef.custom hs) => customSamples hs osc.amplitude osc.phase duration_ms n actual_freq
    | some WaveDef.unknown => List.replicate n 0
    | _ =>
        (List.range n).map (fun i =>
          basicSample osc.waveform osc.amplitude osc.phase actual_freq
            (timeVal duration_ms n i))

/-- ADSR envelope value at sample `i` of `n`, with the attack/decay/release
sample counts already clamped as in `apply_envelope` (each region is a
`np.linspace` segment; the release segment overwrites the last `rS`
samples). -/
def envAt (aS dS rS : ℤ) (n : ℕ) (sustain : ℚ) (i : ℕ) : ℚ :=
  let sS : ℤ := (n : ℤ) - aS - dS - rS
  if (i : ℤ) < aS then linspaceVal 0 1 aS i
  else if (i : ℤ) < aS + dS then linspaceVal 1 sustain dS ((i : ℤ) - aS)
  else if (i : ℤ) < aS + dS + sS then sustain
  else linspaceVal sustain 0 rS ((i : ℤ) - ((n : ℤ) - rS))

/-- `apply_envelope` (src/oscillator.py): the clamped ADSR counts and the
elementwise multiply. The embedding covers the source's domain of
nonnegative ADSR times (negative times would trigger numpy wrap-around
slicing, unreachable from the UI). -/
noncomputable def apply_envelope (osc : Oscillator) (samples : List ℝ) : List ℝ :=
  let total : ℕ := samples.length
  let aS : ℤ := min (pyIntQ (osc.attack * 44100)) (total : ℤ)
  let dS : ℤ := min (pyIntQ (osc.decay * 44100)) ((total : ℤ) - aS)
  let rS : ℤ := min (pyIntQ (osc.release * 44100)) ((total : ℤ) - aS - dS)
  mapIdxFrom (fun i x => x * ((envAt aS dS rS total osc.sustain i : ℚ) : ℝ)) 0 samples

/-- The recursive part of `apply_filter`: `y[i] = (α·x[i] + (1-α)·y[i-1])·r`. -/
noncomputable def lowpassGo (alpha r : ℝ) : List ℝ → ℝ → List ℝ
  | [], _ => []
  | x :: xs, prev =>
      let y := (alpha * x + (1 - alpha) * prev) * r
      y :: lowpassGo alpha r xs y

/-- `apply_filter` (src/oscillator.py): skipped entirely when
`filter_cutoff ≥ 1.0 and filter_resonance == 0`; otherwise the one-pole IIR
with `y[0] = x[0]`. -/
noncomputable def apply_filter (osc : Oscillator) (samples : List ℝ) : List ℝ :=
  if 1 ≤ osc.filter_cutoff ∧ osc.filter_resonance = 0 then samples
  else
    let alpha : ℝ := ((osc.filter_cutoff * (9/10) : ℚ) : ℝ)
    let r : ℝ := ((1 - osc.filter_resonance * (99/100) : ℚ) : ℝ)
    match samples with
    | [] => []
    | x :: xs => x :: lowpassGo alpha r xs x

/-- The direct-form-I loop of `_biquad_filter` with its four delay
elements. -/
noncomputable def biquadGo (b0 b1 b2 a1 a2 : ℝ) : List ℝ → ℝ → ℝ → ℝ → ℝ → List ℝ
  | [], _, _, _, _ => []
  | x :: xs, x1, x2, y1, y2 =>
      let y := b0 * x + b1 * x1 + b2 * x2 - a1 * y1 - a2 * y2
      y :: biquadGo b0 b1 b2 a1 a2 xs x x1 y y1

/-- `_biquad_filter` (src/oscillator.py): the RBJ peaking-EQ biquad,
identity when the band gain is 0 dB. -/
noncomputable def biquadFilter (Fs : ℕ) (F0 Q gain_db : ℚ) (samples : List ℝ) : List ℝ :=
  if gain_db = 0 then samples
  else
    let A : ℝ := Real.rpow 10 ((gain_db : ℝ) / 40)
    let w0 : ℝ := 2 * Real.pi * (F0 : ℝ) / (Fs : ℝ)
    let alpha : ℝ := Real.sin w0 / (2 * (Q : ℝ))
    let b0 := 1 + alpha * A
    let b1 := -2 * Real.cos w0
    let b2 := 1 - alpha * A
    let a0 := 1 + alpha / A
    let a1 := -2 * Real.cos w0
    let a2 := 1 - alpha / A
    biquadGo (b0 / a0) (b1 / a0) (b2 / a0) (a1 / a0) (a2 / a0) samples 0 0 0 0

/-- The 8 standard EQ band center frequencies. -/
def EQ_BAND_FREQUENCIES : List ℚ :=
  [60, 170, 310, 600, 1000, 3000, 6000, 12000]

/-- `apply_eq` (src/oscillator.py): the 8 peaking biquads in series,
skipping bands whose gain is 0 dB; Q = 1.41. -/
noncomputable def apply_eq (osc : Oscillator) (sample_rate : ℕ) (samples : List ℝ) : List ℝ :=
  (List.range 8).foldl
    (fun acc i =>
      if osc.eq_gains.getD i 0 ≠ 0 then
        biquadFilter sample_rate (EQ_BAND_FREQUENCIES.getD i 0) (141/100)
          (osc.eq_gains.getD i 0) acc
      else acc)
    samples

/-- `Oscillator.generate_samples` (src/oscillator.py) at the fixed 44100 Hz
rate: raw waveform → ADSR envelope → lowpass → EQ, returning the buffer and
the post-call oscillator state (the source ends with
`self.current_pan = self.pan`; nothing else of the oscillator is written). -/
noncomputable def generate_samples (osc : Oscillator) (duration_ms : ℕ) : List ℝ × Oscillator :=
  let n := numSamples duration_ms
  let actual_freq : ℝ := (osc.frequency : ℝ) * Real.rpow 2 ((osc.detune : ℝ) / 1200)
  let raw := rawSamples osc duration_ms n actual_freq
  let s1 := apply_envelope osc raw
  let s2 := apply_filter osc s1
  let s3 := apply_eq osc 44100 s2
  (s3, { osc with current_pan := some osc.pan })

/-- `ChordGenerator.NOTE_FREQUENCIES` (src/main.py). -/
def NOTE_FREQUENCIES : List (String × ℚ) :=
  [("C", 26163/100), ("C#", 27718/100), ("D", 29366/100), ("D#", 31113/100),
   ("E", 32963/100), ("F", 34923/100), ("F#", 36999/100), ("G", 392),
   ("G#", 41530/100), ("A", 440), ("A#", 46616/100), ("B", 49388/100)]

/-- Lookup of a pitch-class name in `NOTE_FREQUENCIES`. -/
def noteFreqBase (p : String) : Option ℚ :=
  (NOTE_FREQUENCIES.find? (fun q => q.1 == p)).map (fun q => q.2)

/-- One entry of `notes_data` as consumed by `generate_chord`: a Python
dict with mandatory `pitch` and `octave_adjust` and optional `osc_idx`
(default -1) and `beat_length` (default 1.0). -/
structure NoteData where
  pitch : String
  octave_adjust : ℤ
  osc_idx : Option ℤ
  beat_length : Option ℚ
deriving DecidableEq

/-- `ChordGenerator` state: the oscillator collection and the sound mode
(`'mono'`, `'stereo'` - the `__init__` default - or `'wide stereo'`). -/
structure ChordGenerator where
  oscillators : List Oscillator
  sound_mode : String
deriving DecidableEq

/-- `ChordGenerator.__init__` (chord-definition/file handling is external
to the rendering core). -/
def initChordGenerator : ChordGenerator where
  oscillators := []
  sound_mode := "stereo"

/-- `ChordGenerator.add_oscillator`: the default name is
`osc{count+1}` computed BEFORE appending; returns the new index. -/
def add_oscillator (cg : ChordGenerator) : ChordGenerator × ℕ :=
  let new_osc := { defaultOscillator with
    name := "osc" ++ toString (cg.oscillators.length + 1) }
  ({ cg with oscillators := cg.oscillators ++ [new_osc] }, cg.oscillators.length)

/-- `ChordGenerator.remove_oscillator`: refuses to drop below one
oscillator; `del` by (possibly negative) index. -/
def remove_oscillator (cg : ChordGenerator) (index : ℤ) : ChordGenerator × Bool :=
  if 1 < cg.oscillators.length then
    ({ cg with oscillators :=
        cg.oscillators.eraseIdx (normIdx cg.oscillators.length index).toNat }, true)
  else (cg, false)

/-- The effective oscillator set for master-routed notes
(src/main.py lines 100-104), as indices: the soloed oscillator alone when a
solo index is set, in range, and enabled; otherwise all enabled ones. -/
def effectiveIdxs (oscs : List Oscillator) (solo : ℤ) : List ℕ :=
  if solo ≠ -1 ∧ solo < (oscs.length : ℤ) ∧
      (((pyGet oscs solo).map (fun o => o.enabled)).getD false) = true then
    [(normIdx oscs.length solo).toNat]
  else
    (List.range oscs.length).filter (fun i => (oscs.getD i defaultOscillator).enabled)

/-- Which oscillators render one note (src/main.py lines 130-140): the
effective master set for assignment -1; a specific assignment only if that
oscillator is enabled and (no solo, or it is the soloed one). -/
def resolveNoteOscs (oscs : List Oscillator) (solo : ℤ) (eff : List ℕ)
    (assigned : ℤ) : List ℕ :=
  if assigned = -1 then eff
  else if 0 ≤ assigned ∧ assigned < (oscs.length : ℤ) then
    if (oscs.getD assigned.toNat defaultOscillator).enabled = true ∧
        (solo = -1 ∨ solo = assigned) then
      [assigned.toNat]
    else []
  else []

/-- Per-note rendered duration (src/main.py lines 115-121):
`max(1, int(min(beat_length * ms_per_beat, duration_ms)))` with
`beat_length` defaulting to 1.0 and `ms_per_beat = 60000/bpm`. -/
def noteDurationMs (note : NoteData) (bpm : ℚ) (duration_ms : ℕ) : ℕ :=
  let ms_per_beat : ℚ := 60000 / bpm
  (max 1 (pyIntQ (min ((note.beat_length.getD 1) * ms_per_beat) (duration_ms : ℚ)))).toNat

/-- Per-note frequency (src/main.py line 128):
`base · 2^(master_octave - 4 + octave_adjust)`. -/
def noteFreq (pitch : String) (master_octave octave_adjust : ℤ) : Option ℚ :=
  (noteFreqBase pitch).map (fun base => base * 2 ^ (master_octave - 4 + octave_adjust))

/-- `buf[:len g] += g` (numpy in-place add of a shorter buffer into the
head of a longer one). -/
def addInto : List ℝ → List ℝ → List ℝ
  | buf, [] => buf
  | [], _ => []
  | b :: bs, g :: gs => (b + g) :: addInto bs gs

/-- The body of the inner oscillator loop for one note (src/main.py lines
149-161): temporarily overwrite `frequency`, render, restore `frequency`,
and add the samples into the head of the note's accumulator. -/
noncomputable def renderOscsGo (freq : ℚ) (durMs : ℕ) :
    List ℕ → List ℝ × List Oscillator → List ℝ × List Oscillator
  | [], acc => acc
  | i :: rest, (buf, oscs) =>
      match oscs[i]? with
      | none => renderOscsGo freq durMs rest (buf, oscs)
      | some osc =>
          let res := generate_samples { osc with frequency := freq } durMs
          let osc2 := { res.2 with frequency := osc.frequency }
          renderOscsGo freq durMs rest (addInto buf res.1, oscs.set i osc2)

/-- The inner oscillator loop for one note, starting from the zeroed
per-note accumulator `np.zeros(final_samples_shape)`. -/
noncomputable def renderOscs (oscs : List Oscillator) (idxs : List ℕ) (freq : ℚ)
    (durMs N : ℕ) : List ℝ × List Oscillator :=
  renderOscsGo freq durMs idxs (List.replicate N 0, oscs)

/-- The note loop of `generate_chord` (src/main.py lines 111-163),
threading the combined buffer and the oscillator states. Unknown pitches
and notes with no resolved oscillator are skipped. -/
noncomputable def mixNotes (eff : List ℕ) (solo master_octave : ℤ) (bpm : ℚ)
    (duration_ms N : ℕ) :
    List NoteData → List ℝ × List Oscillator → List ℝ × List Oscillator
  | [], acc => acc
  | note :: rest, (buf, oscs) =>
      let durMs := noteDurationMs note bpm duration_ms
      match noteFreqBase note.pitch with
      | none => mixNotes eff solo master_octave bpm duration_ms N rest (buf, oscs)
      | some base =>
          let freq : ℚ := base * 2 ^ (master_octave - 4 + note.octave_adjust)
          let idxs := resolveNoteOscs oscs solo eff (note.osc_idx.getD (-1))
          if idxs = [] then
            mixNotes eff solo master_octave bpm duration_ms N rest (buf, oscs)
          else
            let res := renderOscs oscs idxs freq durMs N
            mixNotes eff solo master_octave bpm duration_ms N rest
              (addInto buf res.1, res.2)

open Classical in
/-- The peak-normalization step (src/main.py lines 165-169): only when the
buffer has a nonzero entry and the peak exceeds 1.0 is the whole buffer
divided by the peak. -/
noncomputable def normalizeBuf (l : List ℝ) : List ℝ :=
  if ∃ x ∈ l, x ≠ 0 then
    let m := maxAbs l
    if 1 < m then l.map (fun x => x / m) else l
  else l

/-- The fade-out step (src/main.py lines 171-175): multiply the final
`fade_out_ms` worth of samples by `np.linspace 1 0`. -/
noncomputable def applyFade (l : List ℝ) (fade_out_ms : ℕ) : List ℝ :=
  if 0 < fade_out_ms then
    let k := numSamples fade_out_ms
    if k ≤ l.length then
      mapIdxFrom
        (fun i x =>
          if l.length - k ≤ i then
            x * ((linspaceVal 1 0 k ((i : ℤ) - ((l.length : ℤ) - k)) : ℚ) : ℝ)
          else x)
        0 l
    else l
  else l

/-- Stereo synthesis (src/main.py lines 177-193): `'mono'` and the default
`'stereo'` duplicate; `'wide stereo'` delays the right channel by
`int(44100·0.002) = 88` samples (head-padded, tail-truncated), falling back
to duplication on a length mismatch. -/
noncomputable def toStereo (mode : String) (l : List ℝ) : List (ℝ × ℝ) :=
  if mode = "mono" then l.map (fun x => (x, x))
  else if mode = "wide stereo" then
    let right := (List.replicate 88 (0 : ℝ) ++ l).take l.length
    if l.length = right.length then l.zip right
    else l.map (fun x => (x, x))
  else l.map (fun x => (x, x))

/-- The value returned by `generate_chord`: `np.array([])` for an empty
notes list is a zero-length 1-D buffer; the zero-oscillator guard returns a
1-D buffer in `'mono'` mode and a 2-channel one otherwise; the main path
always returns a 2-channel buffer. -/
inductive ChordOutput where
  | mono (buf : List ℝ)
  | stereo (buf : List (ℝ × ℝ))

/-- `ChordGenerator.generate_chord` (src/main.py lines 89-200), returning
the buffer and the post-call generator state. The Python signature defaults
`duration_ms=1000, fade_out_ms=100, master_volume=1.0, master_mute=False,
soloed_osc_idx=-1, bpm=120`. -/
noncomputable def generate_chord (cg : ChordGenerator) (master_octave : ℤ)
    (notes_data : List NoteData) (duration_ms fade_out_ms : ℕ)
    (master_volume : ℚ) (master_mute : Bool) (soloed_osc_idx : ℤ)
    (bpm : ℚ) : ChordOutput × ChordGenerator :=
  if notes_data = [] then (ChordOutput.mono [], cg)
  else
    let N := numSamples (duration_ms + fade_out_ms)
    let eff := effectiveIdxs cg.oscillators soloed_osc_idx
    if cg.oscillators = [] then
      (if cg.sound_mode ≠ "mono" then ChordOutput.stereo (List.replicate N (0, 0))
       else ChordOutput.mono (List.replicate N 0), cg)
    else
      let res := mixNotes eff soloed_osc_idx master_octave bpm duration_ms N
        notes_data (List.replicate N 0, cg.oscillators)
      let final1 := normalizeBuf res.1
      let final2 := applyFade final1 fade_out_ms
      let st := toStereo cg.sound_mode final2
      let out :=
        if master_mute then List.replicate st.length ((0 : ℝ), (0 : ℝ))
        else st.map (fun p => (p.1 * (master_volume : ℝ), p.2 * (master_volume : ℝ)))
      (ChordOutput.stereo out, { cg with oscillators := res.2 })

/-- One sequence step (src/sequencer_ui.py `Sequencer.add_step`). -/
structure Step where
  master_octave : ℤ
  duration : ℚ
  notes_data : List NoteData
deriving DecidableEq

/-- Placeholder step for guarded out-of-range reads. -/
def defaultStep : Step where
  master_octave := 4
  duration := 1
  notes_data := []

/-- `Sequencer` state (src/sequencer_ui.py lines 11-16). -/
structure SeqState where
  sequence : List Step
  bpm : ℚ
  current_step : ℕ
  is_playing : Bool
deriving DecidableEq

/-- `Sequencer.get_step_duration_ms`:
`int((1000 / (bpm / 60)) * duration)`. -/
def get_step_duration_ms (bpm duration : ℚ) : ℤ :=
  let beats_per_second := bpm / 60
  let ms_per_beat := 1000 / beats_per_second
  pyIntQ (ms_per_beat * duration)

/-- The argument record with which `play_next_step` invokes
`ChordGenerator.generate_chord`. The call site omits `bpm`, so the
generator's Python default `bpm=120` is what the render receives. -/
structure ChordCall where
  master_octave : ℤ
  notes_data : List NoteData
  duration_ms : ℕ
  fade_out_ms : ℕ
  master_volume : ℚ
  master_mute : Bool
  soloed_osc_idx : ℤ
  bpm : ℚ
deriving DecidableEq

/-- The externally visible effect of one `play_next_step` invocation:
stop (reset), skip an empty step (with or without a scheduled follow-up),
or render/play a chord and schedule the follow-up after `delayMs`. -/
inductive StepAction where
  | stop
  | skipThenSchedule (delayMs : ℕ)
  | skipThenStop
  | play (call : ChordCall) (delayMs : ℕ)
deriving DecidableEq

/-- `SequencerUI.play_next_step` (src/sequencer_ui.py lines 291-349):
the scheduling core. `crossfade_ms = min(100, ms_per_beat / 4)` is computed
from ONE BEAT; the render duration comes from `get_step_duration_ms`; the
next invocation is scheduled after
`max(1, get_step_duration_ms(duration) - int(crossfade_ms))`. -/
def play_next_step (st : SeqState) (master_volume : ℚ) (master_mute : Bool)
    (solo : ℤ) : StepAction × SeqState :=
  if ¬ st.is_playing ∨ st.sequence.length ≤ st.current_step then
    (StepAction.stop, { st with current_step := 0, is_playing := false })
  else
    let step := st.sequence.getD st.current_step defaultStep
    if step.notes_data = [] then
      let st1 := { st with current_step := st.current_step + 1 }
      if st1.is_playing ∧ st1.current_step < st.sequence.length then
        let ms_per_beat : ℚ := 60000 / st.bpm
        (StepAction.skipThenSchedule (max 1 (pyIntQ (ms_per_beat * step.duration))).toNat, st1)
      else
        (StepAction.skipThenStop, { st1 with is_playing := false })
    else
      let ms_per_beat : ℚ := 60000 / st.bpm
      let crossfade_ms : ℚ := min 100 (ms_per_beat / 4)
      let call : ChordCall :=
        { master_octave := step.master_octave
          notes_data := step.notes_data
          duration_ms := (get_step_duration_ms st.bpm step.duration).toNat
          fade_out_ms := (pyIntQ crossfade_ms).toNat
          master_volume := master_volume
          master_mute := master_mute
          soloed_osc_idx := solo
          bpm := 120 }
      let st1 := { st with current_step := st.current_step + 1 }
      let delay := max 1 (get_step_duration_ms st.bpm step.duration - pyIntQ crossfade_ms)
      (StepAction.play call delay.toNat, st1)

/-- One parsed note token of a sequence-text line, as extracted by the
note regex `([A-Ga-g][#b]?)([+-]\d+)\[([^]]+)\]`. -/
structure NoteToken where
  pitch : String
  octave_adjust : ℤ
  osc_name : String
deriving DecidableEq

/-- One sequence-text line, as produced by `update_sequence_display` and as
matched by the line regex: step number, master octave, duration, and the
note list (`none` encodes the literal `(No notes)` text). -/
structure LineRec where
  step_num : ℕ
  master_octave : ℤ
  duration : ℚ
  notes : Option (List NoteToken)
deriving DecidableEq

/-- The oscillator display name written by `update_sequence_display`
(src/sequencer_ui.py lines 267-273): the oscillator's name for a valid
index, `"master"` for -1, and a debug token for a stale index. -/
def displayOscName (oscs : List Oscillator) (idx : ℤ) : String :=
  if 0 ≤ idx ∧ idx < (oscs.length : ℤ) then
    (((pyGet oscs idx).map (fun o => o.name)).getD ("master"))
  else if idx ≠ -1 then "osc_idx_" ++ toString idx ++ "(!)_"
  else "master"

/-- Serialization of one note by `update_sequence_display`:
`f"{pitch}{oct_adj:+d}[{osc_display_name}]"`. -/
def serializeNote (oscs : List Oscillator) (n : NoteData) : NoteToken where
  pitch := n.pitch
  octave_adjust := n.octave_adjust
  osc_name := displayOscName oscs (n.osc_idx.getD (-1))

/-- Serialization of one step (one text line):
`f"{i+1}. Oct:{master_octave} | Dur:{duration} beats | Notes: {summary}"`. -/
def serializeStep (oscs : List Oscillator) (i : ℕ) (s : Step) : LineRec where
  step_num := i + 1
  master_octave := s.master_octave
  duration := s.duration
  notes := if s.notes_data = [] then none else some (s.notes_data.map (serializeNote oscs))

/-- `SequencerUI.update_sequence_display` (src/sequencer_ui.py lines
257-280) at the structured line level (the textual layer - number
formatting and the regexes - is modelled by `LineRec`). -/
def update_sequence_display (oscs : List Oscillator) (seq : List Step) : List LineRec :=
  mapIdxFrom (fun i s => serializeStep oscs i s) 0 seq

/-- Python `str.lower()` (characterwise, as used on oscillator-name
tokens). -/
def pyLower (s : String) : String :=
  String.mk (s.data.map Char.toLower)

/-- Python `str.upper()` (characterwise, as used on pitch tokens). -/
def pyUpper (s : String) : String :=
  String.mk (s.data.map Char.toUpper)

/-- Python `str.strip()`. -/
def pyStrip (s : String) : String :=
  String.mk (((s.data.dropWhile Char.isWhitespace).reverse.dropWhile
    Char.isWhitespace).reverse)

/-- Python `str.startswith`. -/
def pyStartsWith (s p : String) : Bool :=
  p.data.isPrefixOf s.data

/-- Python `str.endswith`. -/
def pyEndsWith (s p : String) : Bool :=
  p.data.isSuffixOf s.data

/-- Python `str.split(sep)` for a one-character separator. -/
def pySplit (sep : Char) : List Char → List (List Char)
  | [] => [[]]
  | c :: rest =>
      let r := pySplit sep rest
      if c = sep then [] :: r
      else
        match r with
        | [] => [[c]]
        | h :: t => (c :: h) :: t

/-- The numeric value of a decimal digit character. -/
def digitVal (c : Char) : Option ℕ :=
  if '0' ≤ c ∧ c ≤ '9' then some (c.toNat - ('0').toNat) else none

/-- The value of a non-empty all-digit string. -/
def digitsVal : List Char → Option ℕ
  | [] => none
  | l =>
      l.foldl
        (fun acc c =>
          match acc, digitVal c with
          | some n, some v => some (n * 10 + v)
          | _, _ => none)
        (some 0)

/-- Python `int(str)`: an optional sign followed by at least one digit
(anything else raises, modelled as `none`). -/
def pyToInt? (s : String) : Option ℤ :=
  match s.data with
  | '-' :: rest => (digitsVal rest).map (fun n => -(n : ℤ))
  | '+' :: rest => (digitsVal rest).map (fun n => (n : ℤ))
  | l => (digitsVal l).map (fun n => (n : ℤ))

/-- The character class `[A-Ga-g]` of the note regex. -/
def isNoteLetter (c : Char) : Bool :=
  ('A' ≤ c && c ≤ 'G') || ('a' ≤ c && c ≤ 'g')

/-- The pitch pattern `[A-Ga-g][#b]?` of the note regex. -/
def pitchPatternOk (p : String) : Bool :=
  match p.toList with
  | [c] => isNoteLetter c
  | [c, m] => isNoteLetter c && (m == '#' || m == 'b')
  | _ => false

/-- The flat-to-sharp enharmonic fallback table of
`_apply_text_to_sequence`. -/
def enharmonicMap : List (String × String) :=
  [("DB", "C#"), ("EB", "D#"), ("FB", "E"), ("GB", "F#"), ("AB", "G#"), ("BB", "A#")]

/-- First oscillator index whose name equals the (stripped) token. -/
def findOscIdx (oscs : List Oscillator) (nm : String) : Option ℕ :=
  oscs.findIdx? (fun o => o.name == nm)

/-- Note-token validation and resolution of `_apply_text_to_sequence`
(src/sequencer_ui.py lines 171-232): pitch pattern and enharmonic
canonicalization, then oscillator-name resolution - `"master/all"`
(case-insensitive) means -1, otherwise the name must match an existing
oscillator or the stale-index debug pattern. The parsed dict carries only
`pitch`/`octave_adjust`/`osc_idx` (no `beat_length`). -/
def parseNoteToken (oscs : List Oscillator) (t : NoteToken) : Except String NoteData :=
  if pitchPatternOk t.pitch = false then Except.error ("invalid note format")
  else
    let canonical := pyUpper t.pitch
    let resolvedPitch :=
      if (NOTE_FREQUENCIES.map (fun q => q.1)).contains canonical then some canonical
      else ((enharmonicMap.find? (fun q => q.1 == canonical)).map (fun q => q.2))
    match resolvedPitch with
    | none => Except.error ("invalid pitch")
    | some cp =>
        let nm := pyStrip t.osc_name
        if pyLower nm == "master/all" then
          Except.ok { pitch := cp, octave_adjust := t.octave_adjust,
                      osc_idx := some (-1), beat_length := none }
        else
          match findOscIdx oscs nm with
          | some i =>
              Except.ok { pitch := cp, octave_adjust := t.octave_adjust,
                          osc_idx := some (i : ℤ), beat_length := none }
          | none =>
              if pyStartsWith nm ("osc_idx_") && pyEndsWith nm ("(!)_") then
                match (pySplit ('_') nm.data).getD 2 [] |> String.mk |> pyToInt? with
                | some _ =>
                    Except.ok { pitch := cp, octave_adjust := t.octave_adjust,
                                osc_idx := some (-1), beat_length := none }
                | none => Except.error ("oscillator name not found")
              else Except.error ("oscillator name not found")

/-- Parsing of one structured line (src/sequencer_ui.py lines 139-238):
positive duration, `(No notes)` as the empty step, otherwise every note
token must resolve. -/
def parseLine (oscs : List Oscillator) (r : LineRec) : Except String Step :=
  if r.duration ≤ 0 then Except.error ("invalid master octave or duration")
  else
    match r.notes with
    | none =>
        Except.ok { master_octave := r.master_octave, duration := r.duration,
                    notes_data := [] }
    | some toks =>
        if toks = [] then Except.error ("notes section empty")
        else
          (toks.mapM (parseNoteToken oscs)).map
            (fun notes => { master_octave := r.master_octave, duration := r.duration,
                            notes_data := notes })

/-- `SequencerUI._apply_text_to_sequence` at the structured line level:
every line must parse or the whole import fails (the prior sequence is
left untouched on failure). -/
def apply_text_to_sequence (oscs : List Oscillator) (lines : List LineRec) :
    Except String (List Step) :=
  lines.mapM (parseLine oscs)

/-- Modelled from the spec (claim C2): `stepDurationMs =
round(60000/bpm · step.duration)` (round-half-up; Python's banker's
rounding differs only at exact halves, which the comparisons avoid). -/
def spec_stepDurationMs (bpm duration : ℚ) : ℤ :=
  ⌊60000 / bpm * duration + 1/2⌋

/-- Modelled from the spec (claim C2): `crossfadeMs = min(100,
stepDurationMs/4)`. -/
def spec_crossfadeMs (bpm duration : ℚ) : ℚ :=
  min 100 ((spec_stepDurationMs bpm duration : ℚ) / 4)

/-- Modelled from the spec (claim C6): the note's beat length "defaults to
the step's own duration in beats if unspecified", then
`min(beatLength·msPerBeat, durationMs)` floored at 1 ms. -/
def spec_noteDurationMs (note : NoteData) (stepBeats bpm : ℚ) (duration_ms : ℕ) : ℚ :=
  max 1 (min ((note.beat_length.getD stepBeats) * (60000 / bpm)) (duration_ms : ℚ))

/-! ### Helper lemmas -/

lemma addInto_length (buf g : List ℝ) : (addInto buf g).length = buf.length := by
  induction buf generalizing g with
  | nil => cases g <;> simp [addInto]
  | cons b bs ih => cases g with
    | nil => simp [addInto]
    | cons x xs => simp [addInto, ih]

lemma addInto_replicate_zero_left (l : List ℝ) (n : ℕ) (h : l.length = n) :
    addInto (List.replicate n 0) l = l := by
  induction l generalizing n with
  | nil =>
      subst h; rfl
  | cons x xs ih =>
      cases n with
      | zero => simp at h
      | succ m =>
          simp only [List.replicate_succ, addInto, zero_add]
          rw [ih m (by simpa using h)]

lemma mapIdxFrom_length {α β : Type} (f : ℕ → α → β) (i : ℕ) (l : List α) :
    (mapIdxFrom f i l).length = l.length := by
  induction l generalizing i with
  | nil => rfl
  | cons x xs ih => simp [mapIdxFrom, ih]

lemma mapIdxFrom_congr_id {α : Type} (f : ℕ → α → α) (l : List α) (start : ℕ)
    (h : ∀ i x, start ≤ i → i < start + l.length → f i x = x) :
    mapIdxFrom f start l = l := by
  induction l generalizing start with
  | nil => rfl
  | cons x xs ih =>
      simp only [mapIdxFrom]
      rw [h start x le_rfl (by simp),
        ih (start + 1) (fun i y h1 h2 => h i y (by omega) (by simp only [List.length_cons]; omega))]

lemma mapIdxFrom_replicate_zero (f : ℕ → ℝ → ℝ) (n start : ℕ)
    (h : ∀ i, f i 0 = 0) :
    mapIdxFrom f start (List.replicate n (0 : ℝ)) = List.replicate n 0 := by
  induction n generalizing start with
  | zero => rfl
  | succ m ih => simp [List.replicate_succ, mapIdxFrom, h, ih]

lemma foldl_invariant {α β : Type} (P : β → Prop) (f : β → α → β) (l : List α)
    (init : β) (h0 : P init) (hstep : ∀ b a, a ∈ l → P b → P (f b a)) :
    P (l.foldl f init) := by
  induction l generalizing init with
  | nil => exact h0
  | cons x xs ih =>
      exact ih (f init x) (hstep init x (by simp) h0)
        (fun b a ha hb => hstep b a (by simp [ha]) hb)

lemma zip_replicate_self {α β : Type} (n : ℕ) (a : α) (b : β) :
    (List.replicate n a).zip (List.replicate n b) = List.replicate n (a, b) := by
  induction n with
  | zero => rfl
  | succ m ih => simp [List.replicate_succ, ih]

lemma maxAbs_nil : maxAbs [] = 0 := rfl

lemma maxAbs_cons (x : ℝ) (l : List ℝ) : maxAbs (x :: l) = max |x| (maxAbs l) := rfl

lemma maxAbs_nonneg (l : List ℝ) : 0 ≤ maxAbs l := by
  induction l with
  | nil => simp [maxAbs_nil]
  | cons x xs ih => rw [maxAbs_cons]; exact le_max_of_le_right ih

lemma maxAbs_pos_exists (l : List ℝ) (h : 0 < maxAbs l) : ∃ x ∈ l, x ≠ 0 := by
  induction l with
  | nil => simp [maxAbs_nil] at h
  | cons x xs ih =>
      rw [maxAbs_cons, lt_max_iff] at h
      rcases h with h | h
      · exact ⟨x, by simp, by simpa [abs_pos] using h⟩
      · obtain ⟨y, hy, hy0⟩ := ih h
        exact ⟨y, by simp [hy], hy0⟩

lemma maxAbs_map_div (l : List ℝ) (m : ℝ) (hm : 0 < m) :
    maxAbs (l.map (fun x => x / m)) = maxAbs l / m := by
  induction l with
  | nil => simp [maxAbs_nil]
  | cons x xs ih =>
      simp only [List.map_cons, maxAbs_cons, ih]
      rw [abs_div, abs_of_pos hm, max_div_div_right hm.le]

lemma maxAbs_replicate (n : ℕ) (c : ℝ) (hc : 0 ≤ c) (hn : n ≠ 0) :
    maxAbs (List.replicate n c) = c := by
  induction n with
  | zero => simp at hn
  | succ m ih =>
      rw [List.replicate_succ, maxAbs_cons, abs_of_nonneg hc]
      rcases Nat.eq_zero_or_pos m with h | h
      · subst h; simp [maxAbs_nil, hc]
      · rw [ih (Nat.pos_iff_ne_zero.mp h)]; simp

/-- The only oscillator mutation a render performs: `current_pan := pan`. -/
def setPanOsc (o : Oscillator) : Oscillator :=
  { o with current_pan := some o.pan }

lemma setPanOsc_idem (o : Oscillator) : setPanOsc (setPanOsc o) = setPanOsc o := rfl

lemma setPanOsc_enabled (o : Oscillator) : (setPanOsc o).enabled = o.enabled := rfl

lemma generate_samples_snd (osc : Oscillator) (d : ℕ) :
    (generate_samples osc d).2 = { osc with current_pan := some osc.pan } := rfl

/-- "Is reachable from `a` by setting `current_pan := pan` on some
subset of entries". -/
def stateRel (a b : List Oscillator) : Prop :=
  b.length = a.length ∧ ∀ i : ℕ, b[i]? = a[i]? ∨ b[i]? = a[i]?.map setPanOsc

lemma stateRel_refl (a : List Oscillator) : stateRel a a :=
  ⟨rfl, fun _ => Or.inl rfl⟩

lemma stateRel_trans {a b c : List Oscillator} (h1 : stateRel a b) (h2 : stateRel b c) :
    stateRel a c := by
  refine ⟨h2.1.trans h1.1, fun i => ?_⟩
  rcases h1.2 i with hb | hb <;> rcases h2.2 i with hc | hc
  · exact Or.inl (hc.trans hb)
  · right; rw [hc, hb]
  · right; rw [hc, hb]
  · right
    rw [hc, hb]
    cases hx : a[i]? <;> simp [setPanOsc_idem]

lemma stateRel_set {a b : List Oscillator} (h : stateRel a b) (i : ℕ) (osc : Oscillator)
    (hi : b[i]? = some osc) :
    stateRel a (b.set i (setPanOsc osc)) := by
  refine ⟨by simpa using h.1, fun j => ?_⟩
  by_cases hij : j = i
  · subst hij
    have hlen : j < b.length := by
      by_contra hc
      rw [List.getElem?_eq_none (le_of_not_lt hc)] at hi
      exact Option.noConfusion hi
    rw [List.getElem?_set_self hlen]
    right
    rcases h.2 j with h' | h'
    · rw [hi] at h'; rw [← h']; rfl
    · rw [hi] at h'
      cases hx : a[j]? with
      | none => rw [hx] at h'; exact Option.noConfusion h'
      | some o =>
          rw [hx] at h'
          simp only [Option.map_some'] at h' ⊢
          have ho : osc = setPanOsc o := by injection h'
          rw [ho, setPanOsc_idem]
  · rw [List.getElem?_set_ne (by omega)]
    exact h.2 j

lemma renderOscsGo_invariant (freq : ℚ) (durMs : ℕ) (idxs : List ℕ)
    (oscs0 : List Oscillator) :
    ∀ buf oscs, stateRel oscs0 oscs →
      (renderOscsGo freq durMs idxs (buf, oscs)).1.length = buf.length ∧
        stateRel oscs0 (renderOscsGo freq durMs idxs (buf, oscs)).2 := by
  induction idxs with
  | nil => exact fun buf oscs h => ⟨rfl, h⟩
  | cons i rest ih =>
      intro buf oscs h
      simp only [renderOscsGo]
      cases hx : oscs[i]? with
      | none => exact ih buf oscs h
      | some osc =>
          have hset : ({ (generate_samples { osc with frequency := freq } durMs).2 with
              frequency := osc.frequency } : Oscillator) = setPanOsc osc := rfl
          simp only [hset]
          have h2 := ih (addInto buf (generate_samples { osc with frequency := freq } durMs).1)
            (oscs.set i (setPanOsc osc)) (stateRel_set h i osc hx)
          exact ⟨by rw [h2.1, addInto_length], h2.2⟩

lemma renderOscs_invariant (oscs : List Oscillator) (idxs : List ℕ) (freq : ℚ)
    (durMs N : ℕ) :
    (renderOscs oscs idxs freq durMs N).1.length = N ∧
      stateRel oscs (renderOscs oscs idxs freq durMs N).2 := by
  have h := renderOscsGo_invariant freq durMs idxs oscs (List.replicate N 0) oscs
    (stateRel_refl oscs)
  exact ⟨by simpa using h.1, h.2⟩

lemma mixNotes_invariant (eff : List ℕ) (solo mo : ℤ) (bpm : ℚ) (d N : ℕ)
    (notes : List NoteData) (oscs0 : List Oscillator) :
    ∀ buf oscs, buf.length = N → stateRel oscs0 oscs →
      (mixNotes eff solo mo bpm d N notes (buf, oscs)).1.length = N ∧
        stateRel oscs0 (mixNotes eff solo mo bpm d N notes (buf, oscs)).2 := by
  induction notes with
  | nil => exact fun buf oscs hb ho => ⟨hb, ho⟩
  | cons note rest ih =>
      intro buf oscs hb ho
      simp only [mixNotes]
      cases hp : noteFreqBase note.pitch with
      | none => exact ih buf oscs hb ho
      | some base =>
          simp only []
          by_cases hidx : resolveNoteOscs oscs solo eff (note.osc_idx.getD (-1)) = []
          · rw [if_pos hidx]
            exact ih buf oscs hb ho
          · rw [if_neg hidx]
            have hr := renderOscsGo_invariant (base * 2 ^ (mo - 4 + note.octave_adjust))
              (noteDurationMs note bpm d)
              (resolveNoteOscs oscs solo eff (note.osc_idx.getD (-1))) oscs
              (List.replicate N 0) oscs (stateRel_refl oscs)
            refine ih _ _ ?_ (stateRel_trans ho hr.2)
            rw [addInto_length, hb]

lemma apply_envelope_length (osc : Oscillator) (s : List ℝ) :
    (apply_envelope osc s).length = s.length := by
  simp [apply_envelope, mapIdxFrom_length]

lemma lowpassGo_length (a r : ℝ) (l : List ℝ) (p : ℝ) :
    (lowpassGo a r l p).length = l.length := by
  induction l generalizing p with
  | nil => rfl
  | cons x xs ih => simp [lowpassGo, ih]

lemma apply_filter_length (osc : Oscillator) (s : List ℝ) :
    (apply_filter osc s).length = s.length := by
  rw [apply_filter]
  split
  · rfl
  · cases s with
    | nil => rfl
    | cons x xs => simp [lowpassGo_length]

lemma biquadGo_length (b0 b1 b2 a1 a2 : ℝ) (l : List ℝ) (x1 x2 y1 y2 : ℝ) :
    (biquadGo b0 b1 b2 a1 a2 l x1 x2 y1 y2).length = l.length := by
  induction l generalizing x1 x2 y1 y2 with
  | nil => rfl
  | cons x xs ih => simp [biquadGo, ih]

lemma biquadFilter_length (Fs : ℕ) (F0 Q g : ℚ) (s : List ℝ) :
    (biquadFilter Fs F0 Q g s).length = s.length := by
  rw [biquadFilter]
  split
  · rfl
  · simp [biquadGo_length]

lemma apply_eq_length (osc : Oscillator) (r : ℕ) (s : List ℝ) :
    (apply_eq osc r s).length = s.length := by
  rw [apply_eq]
  have := foldl_invariant (fun l : List ℝ => l.length = s.length)
    (fun acc i =>
      if osc.eq_gains.getD i 0 ≠ 0 then
        biquadFilter r (EQ_BAND_FREQUENCIES.getD i 0) (141/100) (osc.eq_gains.getD i 0) acc
      else acc)
    (List.range 8) s rfl ?_
  · exact this
  · intro b a _ hbl
    by_cases hg : osc.eq_gains.getD a 0 ≠ 0
    · simp only [if_pos hg]
      rw [biquadFilter_length, hbl]
    · simp only [if_neg hg]
      exact hbl

lemma generate_samples_length (osc : Oscillator) (d : ℕ)
    (hraw : (rawSamples osc d (numSamples d)
      ((osc.frequency : ℝ) * Real.rpow 2 ((osc.detune : ℝ) / 1200))).length = numSamples d) :
    (generate_samples osc d).1.length = numSamples d := by
  simp only [generate_samples]
  rw [apply_eq_length, apply_filter_length, apply_envelope_length, hraw]

lemma rawSamples_length (osc : Oscillator) (d n : ℕ) (freq : ℝ) :
    (rawSamples osc d n freq).length = n := by
  rw [rawSamples]
  split
  · rw [pointSamples]
    split <;> simp
  · split
    · split
      · rw [pointSamples]; split <;> simp
      · simp
    · simp only [customSamples]
      split
      · simp
      · split <;> simp
    · simp
    · simp

lemma envAt_zero_counts (n i : ℕ) (hi : i < n) : envAt 0 0 0 n 1 i = 1 := by
  have h1 : ¬ ((i : ℤ) < 0) := by omega
  have h2 : ¬ ((i : ℤ) < 0 + 0) := by omega
  have h3 : (i : ℤ) < 0 + 0 + ((n : ℤ) - 0 - 0 - 0) := by omega
  simp only [envAt, if_neg h1, if_neg h2, if_pos h3]

lemma apply_envelope_sustain_one (osc : Oscillator) (s : List ℝ)
    (ha : osc.attack = 0) (hd : osc.decay = 0) (hre : osc.release = 0)
    (hs : osc.sustain = 1) :
    apply_envelope osc s = s := by
  have hz : pyIntQ ((0 : ℚ) * 44100) = 0 := by norm_num [pyIntQ]
  have hmin : min (0 : ℤ) ((s.length : ℤ)) = 0 := min_eq_left (Int.ofNat_nonneg _)
  simp only [apply_envelope, ha, hd, hre, hs, hz, sub_zero, hmin]
  rw [mapIdxFrom_congr_id]
  intro i x h1 h2
  rw [envAt_zero_counts s.length i (by omega)]
  norm_num

lemma apply_filter_skip (osc : Oscillator) (s : List ℝ)
    (hc : 1 ≤ osc.filter_cutoff) (hr : osc.filter_resonance = 0) :
    apply_filter osc s = s := by
  rw [apply_filter, if_pos ⟨hc, hr⟩]

lemma apply_eq_zero_gains (osc : Oscillator) (r : ℕ) (s : List ℝ)
    (h : ∀ i, osc.eq_gains.getD i 0 = 0) :
    apply_eq osc r s = s := by
  rw [apply_eq]
  have : ∀ l : List ℕ, (l.foldl (fun acc i =>
      if osc.eq_gains.getD i 0 ≠ 0 then
        biquadFilter r (EQ_BAND_FREQUENCIES.getD i 0) (141/100) (osc.eq_gains.getD i 0) acc
      else acc) s) = s := by
    intro l
    induction l with
    | nil => rfl
    | cons a rest ih =>
        simp only [List.foldl_cons, h a, ne_eq, not_true_eq_false, reduceIte]
        simpa using ih
  exact this (List.range 8)

lemma lowpassGo_zero (a r : ℝ) (n : ℕ) :
    lowpassGo a r (List.replicate n 0) 0 = List.replicate n 0 := by
  induction n with
  | zero => rfl
  | succ m ih =>
      simp only [List.replicate_succ, lowpassGo, mul_zero, zero_add, add_zero, zero_mul]
      rw [ih]

lemma apply_filter_zero (osc : Oscillator) (n : ℕ) :
    apply_filter osc (List.replicate n 0) = List.replicate n 0 := by
  rw [apply_filter]
  split
  · rfl
  · cases n with
    | zero => rfl
    | succ m =>
        simp only [List.replicate_succ]
        rw [lowpassGo_zero]

lemma biquadGo_zero (b0 b1 b2 a1 a2 : ℝ) (n : ℕ) :
    biquadGo b0 b1 b2 a1 a2 (List.replicate n 0) 0 0 0 0 = List.replicate n 0 := by
  induction n with
  | zero => rfl
  | succ m ih =>
      simp only [List.replicate_succ, biquadGo, mul_zero, add_zero, sub_zero, zero_sub,
        neg_zero, zero_add]
      rw [ih]

lemma biquadFilter_zero (Fs : ℕ) (F0 Q g : ℚ) (n : ℕ) :
    biquadFilter Fs F0 Q g (List.replicate n 0) = List.replicate n 0 := by
  rw [biquadFilter]
  split
  · rfl
  · exact biquadGo_zero _ _ _ _ _ n

lemma apply_eq_zero (osc : Oscillator) (r : ℕ) (n : ℕ) :
    apply_eq osc r (List.replicate n 0) = List.replicate n 0 := by
  rw [apply_eq]
  have := foldl_invariant (fun l : List ℝ => l = List.replicate n 0)
    (fun acc i =>
      if osc.eq_gains.getD i 0 ≠ 0 then
        biquadFilter r (EQ_BAND_FREQUENCIES.getD i 0) (141/100) (osc.eq_gains.getD i 0) acc
      else acc)
    (List.range 8) (List.replicate n 0) rfl ?_
  · exact this
  · intro b a _ hbz
    subst hbz
    by_cases hg : osc.eq_gains.getD a 0 ≠ 0
    · simp only [if_pos hg]
      exact biquadFilter_zero _ _ _ _ n
    · simp only [if_neg hg]

lemma apply_envelope_zero (osc : Oscillator) (n : ℕ) :
    apply_envelope osc (List.replicate n 0) = List.replicate n 0 := by
  simp only [apply_envelope]
  rw [mapIdxFrom_replicate_zero]
  intro i
  exact zero_mul _

lemma generate_samples_zero_raw (osc : Oscillator) (d : ℕ)
    (hraw : rawSamples osc d (numSamples d)
      ((osc.frequency : ℝ) * Real.rpow 2 ((osc.detune : ℝ) / 1200)) =
      List.replicate (numSamples d) 0) :
    (generate_samples osc d).1 = List.replicate (numSamples d) 0 := by
  simp only [generate_samples]
  rw [hraw, apply_envelope_zero, apply_filter_zero, apply_eq_zero]

lemma normalizeBuf_length (l : List ℝ) : (normalizeBuf l).length = l.length := by
  rw [normalizeBuf]
  split
  · dsimp only
    split <;> simp
  · rfl

lemma normalizeBuf_replicate_zero (n : ℕ) :
    normalizeBuf (List.replicate n 0) = List.replicate n 0 := by
  rw [normalizeBuf, if_neg]
  intro h
  obtain ⟨x, hx, hx0⟩ := h
  exact hx0 (List.eq_of_mem_replicate hx)

lemma applyFade_length (l : List ℝ) (f : ℕ) : (applyFade l f).length = l.length := by
  rw [applyFade]
  split
  · dsimp only
    split
    · rw [mapIdxFrom_length]
    · rfl
  · rfl

lemma applyFade_replicate_zero (n f : ℕ) :
    applyFade (List.replicate n 0) f = List.replicate n 0 := by
  rw [applyFade]
  split
  · dsimp only
    split
    · rw [mapIdxFrom_replicate_zero]
      intro i
      split <;> simp
    · rfl
  · rfl

lemma toStereo_length (mode : String) (l : List ℝ) :
    (toStereo mode l).length = l.length := by
  rw [toStereo]
  split
  · simp
  · split
    · dsimp only
      split
      · rename_i hlen
        simp only [List.length_zip]
        omega
      · simp
    · simp

lemma toStereo_replicate_zero (mode : String) (n : ℕ) :
    toStereo mode (List.replicate n 0) = List.replicate n (0, 0) := by
  rw [toStereo]
  split
  · simp
  · split
    · dsimp only
      have hr : ((List.replicate 88 (0 : ℝ) ++ List.replicate n (0 : ℝ)).take
          (List.replicate n (0 : ℝ)).length) = List.replicate n (0 : ℝ) := by
        rw [← List.replicate_add, List.take_replicate]
        simp [Nat.min_def]
      rw [hr]
      rw [if_pos rfl, zip_replicate_self]
    · simp

lemma generate_samples_of_raw_one (osc : Oscillator) (d : ℕ)
    (ha : osc.attack = 0) (hd : osc.decay = 0) (hre : osc.release = 0)
    (hs : osc.sustain = 1) (hc : osc.filter_cutoff = 1) (hr : osc.filter_resonance = 0)
    (hg : ∀ i, osc.eq_gains.getD i 0 = 0)
    (hraw : rawSamples osc d (numSamples d)
      ((osc.frequency : ℝ) * Real.rpow 2 ((osc.detune : ℝ) / 1200)) =
      List.replicate (numSamples d) 1) :
    (generate_samples osc d).1 = List.replicate (numSamples d) 1 := by
  simp only [generate_samples]
  rw [hraw, apply_envelope_sustain_one osc _ ha hd hre hs,
    apply_filter_skip osc _ (le_of_eq hc.symm) hr, apply_eq_zero_gains osc _ _ hg]

lemma rawSamples_live_single_one (osc : Oscillator) (d n : ℕ) (freq : ℝ)
    (hamp : osc.amplitude = 1) (hlive : osc.is_live_editing = true)
    (hpts : osc.live_edit_points = [1]) :
    rawSamples osc d n freq = List.replicate n 1 := by
  rw [rawSamples, if_pos ⟨hlive, by rw [hpts]; simp⟩, hpts, pointSamples]
  simp [hamp]

lemma pyGet_mem {α : Type} {l : List α} {i : ℤ} {a : α} (h : pyGet l i = some a) :
    a ∈ l := by
  rw [pyGet] at h
  split at h
  · exact Option.noConfusion h
  · exact List.get?_mem h


lemma effectiveIdxs_all_disabled (oscs : List Oscillator) (solo : ℤ)
    (h : ∀ o ∈ oscs, o.enabled = false) :
    effectiveIdxs oscs solo = [] := by
  rw [effectiveIdxs, if_neg, List.filter_eq_nil_iff]
  · intro i hi
    have hlt : i < oscs.length := List.mem_range.mp hi
    have : oscs.getD i defaultOscillator = oscs[i] := List.getD_eq_getElem oscs _ hlt
    rw [this, h _ (List.getElem_mem hlt)]
    simp
  · rintro ⟨-, -, hc⟩
    cases hg : pyGet oscs solo with
    | none => rw [hg] at hc; simp at hc
    | some o =>
        rw [hg] at hc
        simp only [Option.map_some', Option.getD_some] at hc
        rw [h o (pyGet_mem hg)] at hc
        exact Bool.noConfusion hc

lemma resolveNoteOscs_all_disabled (oscs : List Oscillator) (solo a : ℤ)
    (h : ∀ o ∈ oscs, o.enabled = false) :
    resolveNoteOscs oscs solo [] a = [] := by
  rw [resolveNoteOscs]
  split
  · rfl
  · split
    · rw [if_neg]
      rintro ⟨he, -⟩
      rename_i hrange
      have hlt : a.toNat < oscs.length := by omega
      have : oscs.getD a.toNat defaultOscillator = oscs[a.toNat] :=
        List.getD_eq_getElem oscs _ hlt
      rw [this, h _ (List.getElem_mem hlt)] at he
      exact Bool.noConfusion he
    · rfl

lemma mixNotes_all_disabled (solo mo : ℤ) (bpm : ℚ) (d N : ℕ)
    (notes : List NoteData) (oscs : List Oscillator) (buf : List ℝ)
    (h : ∀ o ∈ oscs, o.enabled = false) :
    mixNotes [] solo mo bpm d N notes (buf, oscs) = (buf, oscs) := by
  induction notes with
  | nil => rfl
  | cons note rest ih =>
      simp only [mixNotes]
      cases hp : noteFreqBase note.pitch with
      | none => exact ih
      | some base =>
          simp only []
          rw [if_pos (resolveNoteOscs_all_disabled oscs solo _ h)]
          exact ih

lemma generate_chord_main_path (cg : ChordGenerator) (mo : ℤ) (notes : List NoteData)
    (d f : ℕ) (v : ℚ) (mute : Bool) (solo : ℤ) (bpm : ℚ)
    (hne : notes ≠ []) (hosc : cg.oscillators ≠ []) :
    ∃ buf, (generate_chord cg mo notes d f v mute solo bpm).1 = ChordOutput.stereo buf ∧
      buf.length = numSamples (d + f) := by
  rw [generate_chord, if_neg hne]
  simp only [if_neg hosc]
  set res := mixNotes (effectiveIdxs cg.oscillators solo) solo mo bpm d
    (numSamples (d + f)) notes (List.replicate (numSamples (d + f)) 0, cg.oscillators)
    with hres
  have hlen : res.1.length = numSamples (d + f) :=
    (mixNotes_invariant _ _ _ _ _ _ notes cg.oscillators _ _ (by simp)
      (stateRel_refl _)).1
  refine ⟨_, rfl, ?_⟩
  split
  · rw [List.length_replicate, toStereo_length, applyFade_length, normalizeBuf_length, hlen]
  · rw [List.length_map, toStereo_length, applyFade_length, normalizeBuf_length, hlen]

lemma generate_chord_all_disabled (cg : ChordGenerator) (mo : ℤ) (notes : List NoteData)
    (d f : ℕ) (v : ℚ) (mute : Bool) (solo : ℤ) (bpm : ℚ)
    (hne : notes ≠ []) (hosc : cg.oscillators ≠ [])
    (hdis : ∀ o ∈ cg.oscillators, o.enabled = false) :
    (generate_chord cg mo notes d f v mute solo bpm).1 =
      ChordOutput.stereo (List.replicate (numSamples (d + f)) (0, 0)) := by
  rw [generate_chord, if_neg hne]
  simp only [if_neg hosc]
  rw [effectiveIdxs_all_disabled cg.oscillators solo hdis,
    mixNotes_all_disabled solo mo bpm d (numSamples (d + f)) notes cg.oscillators _ hdis]
  simp only [normalizeBuf_replicate_zero, applyFade_replicate_zero, toStereo_replicate_zero]
  split
  · rw [List.length_replicate]
  · rw [List.map_replicate]
    simp

lemma normalizeBuf_of_peak_gt_one (l : List ℝ) (h : 1 < maxAbs l) :
    normalizeBuf l = l.map (fun x => x / maxAbs l) := by
  have hex : ∃ x ∈ l, x ≠ 0 := maxAbs_pos_exists l (lt_trans one_pos h)
  rw [normalizeBuf, if_pos hex]
  dsimp only
  rw [if_pos h]

lemma maxAbs_normalizeBuf_of_peak_gt_one (l : List ℝ) (h : 1 < maxAbs l) :
    maxAbs (normalizeBuf l) = 1 := by
  rw [normalizeBuf_of_peak_gt_one l h,
    maxAbs_map_div l (maxAbs l) (lt_trans one_pos h)]
  exact div_self (ne_of_gt (lt_trans one_pos h))

lemma normalizeBuf_id_of_peak_le_one (l : List ℝ) (h : maxAbs l ≤ 1) :
    normalizeBuf l = l := by
  rw [normalizeBuf]
  split
  · dsimp only
    rw [if_neg (not_lt.mpr h)]
  · rfl

/-- Erase the `enabled` flag (for comparing configurations that may differ
only in enabled/disabled state). -/
def enabledMasked (o : Oscillator) : Oscillator :=
  { o with enabled := false }

/-- Two oscillator collections that agree everywhere except possibly in the
`enabled` flags of oscillators other than `k`. -/
def soloEquiv (k : ℕ) (a b : List Oscillator) : Prop :=
  a.length = b.length ∧
  ∀ i, i < a.length →
    (i = k → a.getD i defaultOscillator = b.getD i defaultOscillator) ∧
    (i ≠ k → enabledMasked (a.getD i defaultOscillator) =
      enabledMasked (b.getD i defaultOscillator))

instance soloEquivDecidable (k : ℕ) (a b : List Oscillator) :
    Decidable (soloEquiv k a b) := by
  unfold soloEquiv
  infer_instance

lemma soloEquiv_getD_k {k : ℕ} {a b : List Oscillator} (h : soloEquiv k a b)
    (hk : k < a.length) :
    a.getD k defaultOscillator = b.getD k defaultOscillator :=
  ((h.2 k hk).1 rfl)

lemma soloEquiv_getElem?_k {k : ℕ} {a b : List Oscillator} (h : soloEquiv k a b)
    (hk : k < a.length) :
    a[k]? = b[k]? := by
  have hkb : k < b.length := h.1 ▸ hk
  rw [List.getElem?_eq_getElem hk, List.getElem?_eq_getElem hkb]
  have h2 := soloEquiv_getD_k h hk
  rw [List.getD_eq_getElem a _ hk, List.getD_eq_getElem b _ hkb] at h2
  rw [h2]

lemma soloEquiv_set {k : ℕ} {a b : List Oscillator} (h : soloEquiv k a b)
    (x : Oscillator) :
    soloEquiv k (a.set k x) (b.set k x) := by
  refine ⟨by simpa using h.1, fun i hi => ?_⟩
  have hia : i < a.length := by simpa using hi
  constructor
  · rintro rfl
    have hib : i < b.length := h.1 ▸ hia
    rw [List.getD_eq_getElem _ _ (by simpa using hia),
      List.getD_eq_getElem _ _ (by simpa using hib)]
    rw [List.getElem_set_self (by simpa using hia), List.getElem_set_self (by simpa using hib)]
  · intro hik
    have hib : i < b.length := h.1 ▸ hia
    rw [List.getD_eq_getElem _ _ (by simpa using hia),
      List.getD_eq_getElem _ _ (by simpa using hib),
      List.getElem_set_ne (by omega : k ≠ i),
      List.getElem_set_ne (by omega : k ≠ i)]
    have := (h.2 i hia).2 hik
    rwa [List.getD_eq_getElem a _ hia, List.getD_eq_getElem b _ hib] at this

lemma effectiveIdxs_solo (oscs : List Oscillator) (k : ℕ) (hk : k < oscs.length)
    (hen : (oscs.getD k defaultOscillator).enabled = true) :
    effectiveIdxs oscs (k : ℤ) = [k] := by
  have hget : pyGet oscs (k : ℤ) = some (oscs.getD k defaultOscillator) := by
    rw [pyGet, normIdx, if_neg (by omega), if_neg (by omega)]
    rw [Int.toNat_natCast, List.get?_eq_getElem? , List.getElem?_eq_getElem hk,
      List.getD_eq_getElem oscs _ hk]
  rw [effectiveIdxs, if_pos]
  · rw [normIdx, if_neg (by omega), Int.toNat_natCast]
  · refine ⟨by omega, by exact_mod_cast hk, ?_⟩
    rw [hget]
    simpa using hen

lemma resolveNoteOscs_solo_cases (oscs : List Oscillator) (k : ℕ) (assigned : ℤ) :
    resolveNoteOscs oscs (k : ℤ) [k] assigned = [] ∨
      resolveNoteOscs oscs (k : ℤ) [k] assigned = [k] := by
  rw [resolveNoteOscs]
  split
  · exact Or.inr rfl
  · split
    · split
      · rename_i hcond
        right
        obtain ⟨-, hsolo⟩ := hcond
        rcases hsolo with h | h
        · omega
        · have : assigned.toNat = k := by omega
          rw [this]
      · exact Or.inl rfl
    · exact Or.inl rfl

lemma resolveNoteOscs_soloEquiv {k : ℕ} {a b : List Oscillator}
    (h : soloEquiv k a b) (hk : k < a.length) (assigned : ℤ) :
    resolveNoteOscs a (k : ℤ) [k] assigned = resolveNoteOscs b (k : ℤ) [k] assigned := by
  rw [resolveNoteOscs, resolveNoteOscs, ← h.1]
  split
  · rfl
  · split
    · rename_i hne hrange
      by_cases hak : assigned = (k : ℤ)
      · subst hak
        rw [Int.toNat_natCast] at *
        rw [soloEquiv_getD_k h hk]
      · have hne2 : assigned.toNat ≠ k := by omega
        have hmask := (h.2 assigned.toNat (by omega)).2 hne2
        have : (a.getD assigned.toNat defaultOscillator).enabled = true ∧
            ((k : ℤ) = -1 ∨ (k : ℤ) = assigned) ↔
            (b.getD assigned.toNat defaultOscillator).enabled = true ∧
            ((k : ℤ) = -1 ∨ (k : ℤ) = assigned) := by
          constructor <;> rintro ⟨-, h2⟩ <;> exfalso <;> omega
        split
        · rename_i hca
          rw [if_pos (this.mp hca)]
        · rename_i hca
          rw [if_neg (fun hcb => hca (this.mpr hcb))]
    · rfl

lemma renderOscs_soloEquiv {k : ℕ} {a b : List Oscillator} (h : soloEquiv k a b)
    (hk : k < a.length) (freq : ℚ) (durMs N : ℕ) :
    (renderOscs a [k] freq durMs N).1 = (renderOscs b [k] freq durMs N).1 ∧
      soloEquiv k (renderOscs a [k] freq durMs N).2 (renderOscs b [k] freq durMs N).2 := by
  have hab := soloEquiv_getElem?_k h hk
  rw [renderOscs, renderOscs]
  simp only [renderOscsGo]
  rw [← hab]
  cases hx : a[k]? with
  | none =>
      simp only [renderOscsGo]
      exact ⟨trivial, h⟩
  | some osc =>
      simp only [renderOscsGo]
      exact ⟨trivial, soloEquiv_set h _⟩

lemma mixNotes_soloEquiv (k : ℕ) (mo : ℤ) (bpm : ℚ) (d N : ℕ)
    (notes : List NoteData) :
    ∀ (a b : List Oscillator) (buf : List ℝ), soloEquiv k a b → k < a.length →
      (mixNotes [k] (k : ℤ) mo bpm d N notes (buf, a)).1 =
        (mixNotes [k] (k : ℤ) mo bpm d N notes (buf, b)).1 ∧
      soloEquiv k (mixNotes [k] (k : ℤ) mo bpm d N notes (buf, a)).2
        (mixNotes [k] (k : ℤ) mo bpm d N notes (buf, b)).2 ∧
      (mixNotes [k] (k : ℤ) mo bpm d N notes (buf, a)).2.length = a.length := by
  induction notes with
  | nil =>
      intro a b buf h hk
      exact ⟨rfl, h, rfl⟩
  | cons note rest ih =>
      intro a b buf h hk
      simp only [mixNotes]
      cases hp : noteFreqBase note.pitch with
      | none => exact ih a b buf h hk
      | some base =>
          simp only []
          rw [← resolveNoteOscs_soloEquiv h hk (note.osc_idx.getD (-1))]
          rcases resolveNoteOscs_solo_cases a k (note.osc_idx.getD (-1)) with hres | hres
          · rw [hres]
            simp only [reduceIte]
            exact ih a b buf h hk
          · rw [hres]
            simp only [List.cons_ne_self]
            have hrender := renderOscs_soloEquiv h hk
              (base * 2 ^ (mo - 4 + note.octave_adjust)) (noteDurationMs note bpm d) N
            rw [if_neg (by simp)]
            have hlen2 : (renderOscs a [k] (base * 2 ^ (mo - 4 + note.octave_adjust))
                (noteDurationMs note bpm d) N).2.length = a.length :=
              ((renderOscs_invariant a [k] _ _ N).2).1
            have hk2 : k < (renderOscs a [k] (base * 2 ^ (mo - 4 + note.octave_adjust))
                (noteDurationMs note bpm d) N).2.length := by rw [hlen2]; exact hk
            have hrec := ih _ _ (addInto buf (renderOscs a [k]
              (base * 2 ^ (mo - 4 + note.octave_adjust)) (noteDurationMs note bpm d) N).1)
              hrender.2 hk2
            rw [hrender.1] at hrec ⊢
            exact ⟨hrec.1, hrec.2.1, by rw [hrec.2.2, hlen2]⟩

/-- Relation between a full collection and the singleton collection holding
(the evolving copy of) its `k`-th oscillator. -/
def singleRel (k : ℕ) (a b : List Oscillator) : Prop :=
  b.length = 1 ∧ k < a.length ∧ a[k]? = b[0]?

lemma singleRel_set {k : ℕ} {a b : List Oscillator} (h : singleRel k a b)
    (x : Oscillator) : singleRel k (a.set k x) (b.set 0 x) := by
  obtain ⟨hb, hk, hab⟩ := h
  refine ⟨by simpa using hb, by simpa using hk, ?_⟩
  rw [List.getElem?_set_self (by simpa using hk),
    List.getElem?_set_self (by simpa using (by omega : 0 < b.length))]

lemma renderOscs_singleRel {k : ℕ} {a b : List Oscillator} (h : singleRel k a b)
    (freq : ℚ) (durMs N : ℕ) :
    (renderOscs a [k] freq durMs N).1 = (renderOscs b [0] freq durMs N).1 ∧
      singleRel k (renderOscs a [k] freq durMs N).2 (renderOscs b [0] freq durMs N).2 := by
  obtain ⟨hb, hk, hab⟩ := h
  rw [renderOscs, renderOscs]
  simp only [renderOscsGo]
  rw [← hab]
  cases hx : a[k]? with
  | none =>
      rw [List.getElem?_eq_getElem hk] at hx
      exact Option.noConfusion hx
  | some osc =>
      simp only [renderOscsGo]
      exact ⟨trivial, singleRel_set ⟨hb, hk, hab⟩ _⟩

lemma mixNotes_singleRel (k : ℕ) (mo : ℤ) (bpm : ℚ) (d N : ℕ)
    (notes : List NoteData) (hmaster : ∀ note ∈ notes, note.osc_idx.getD (-1) = -1) :
    ∀ (a b : List Oscillator) (buf : List ℝ), singleRel k a b →
      (mixNotes [k] (k : ℤ) mo bpm d N notes (buf, a)).1 =
        (mixNotes [0] (k : ℤ) mo bpm d N notes (buf, b)).1 ∧
      singleRel k (mixNotes [k] (k : ℤ) mo bpm d N notes (buf, a)).2
        (mixNotes [0] (k : ℤ) mo bpm d N notes (buf, b)).2 := by
  induction notes with
  | nil =>
      intro a b buf h
      exact ⟨rfl, h⟩
  | cons note rest ih =>
      intro a b buf h
      have hm : note.osc_idx.getD (-1) = -1 := hmaster note (by simp)
      have hmrest : ∀ n ∈ rest, n.osc_idx.getD (-1) = -1 :=
        fun n hn => hmaster n (by simp [hn])
      simp only [mixNotes]
      cases hp : noteFreqBase note.pitch with
      | none => exact ih hmrest a b buf h
      | some base =>
          simp only []
          rw [hm]
          have hra : resolveNoteOscs a (k : ℤ) [k] (-1) = [k] := by
            rw [resolveNoteOscs, if_pos rfl]
          have hrb : resolveNoteOscs b (k : ℤ) [0] (-1) = [0] := by
            rw [resolveNoteOscs, if_pos rfl]
          rw [hra, hrb]
          rw [if_neg (by simp), if_neg (by simp)]
          have hrender := renderOscs_singleRel h
            (base * 2 ^ (mo - 4 + note.octave_adjust)) (noteDurationMs note bpm d) N
          have hrec := ih hmrest _ _ (addInto buf (renderOscs a [k]
            (base * 2 ^ (mo - 4 + note.octave_adjust)) (noteDurationMs note bpm d) N).1)
            hrender.2
          rw [hrender.1] at hrec ⊢
          exact hrec

lemma effectiveIdxs_singleton (osc : Oscillator) (k : ℕ) (hen : osc.enabled = true) :
    effectiveIdxs [osc] (k : ℤ) = [0] := by
  rw [effectiveIdxs]
  split
  · rename_i hcond
    obtain ⟨-, hlt, -⟩ := hcond
    have hk0 : k = 0 := by
      simp only [List.length_singleton] at hlt
      omega
    subst hk0
    rw [normIdx, if_neg (by omega)]
    rfl
  · simp [List.filter, hen]

/-! ### Concrete fixtures for counterexamples and witnesses -/

/-- An oscillator whose render is exactly a constant buffer of ones: unit
amplitude, instant-on/never-off envelope, filter and EQ at their identity
settings, and an active single-point live-edit override at value 1. -/
def flatOsc : Oscillator :=
  { defaultOscillator with
      amplitude := 1, attack := 0, decay := 0, release := 0, sustain := 1,
      is_live_editing := true, live_edit_points := [1] }

lemma generate_samples_flatOsc (freq : ℚ) (d : ℕ) :
    (generate_samples { flatOsc with frequency := freq } d).1 =
      List.replicate (numSamples d) 1 := by
  refine generate_samples_of_raw_one _ d rfl rfl rfl rfl rfl rfl ?_ ?_
  · intro i
    show (List.replicate 8 (0 : ℚ)).getD i 0 = 0
    rcases lt_or_ge i 8 with hi | hi
    · rw [List.getD_eq_getElem _ _ (by simpa using hi)]
      exact List.eq_of_mem_replicate (List.getElem_mem _)
    · rw [List.getD_eq_default _ _ (by simpa using hi)]
  · exact rawSamples_live_single_one _ _ _ _ rfl rfl rfl

/-- Two-oscillator generator: a disabled copy at index 0, the enabled flat
oscillator at index 1, in `'mono'` mode. -/
def cgTwoOsc : ChordGenerator :=
  { oscillators := [{ flatOsc with enabled := false }, flatOsc], sound_mode := "mono" }

/-- The reduced collection holding only the oscillator soloed in
`cgTwoOsc` (index 1 there, index 0 here). -/
def cgOneOsc : ChordGenerator :=
  { oscillators := [flatOsc], sound_mode := "mono" }

/-- A note explicitly assigned to oscillator index 1. -/
def noteToOsc1 : NoteData :=
  { pitch := "C", octave_adjust := 0, osc_idx := some 1, beat_length := none }

lemma noteDurationMs_noteToOsc1 : noteDurationMs noteToOsc1 120 1 = 1 := by
  norm_num [noteDurationMs, pyIntQ, noteToOsc1]

lemma generate_chord_cgTwoOsc :
    (generate_chord cgTwoOsc 4 [noteToOsc1] 1 0 1 false 1 120).1 =
      ChordOutput.stereo (List.replicate 44 (1, 1)) := by
  rw [generate_chord, if_neg (by simp)]
  simp only [if_neg (show cgTwoOsc.oscillators ≠ [] by simp [cgTwoOsc])]
  have heff : effectiveIdxs cgTwoOsc.oscillators 1 = [1] := by decide
  have hN : numSamples (1 + 0) = 44 := by decide
  rw [hN, heff]
  have hmix : (mixNotes [1] 1 4 120 1 44 [noteToOsc1]
      (List.replicate 44 0, cgTwoOsc.oscillators)).1 = List.replicate 44 1 := by
    simp only [mixNotes]
    rw [show noteFreqBase noteToOsc1.pitch = some (26163/100) from rfl]
    simp only []
    rw [show resolveNoteOscs cgTwoOsc.oscillators 1 [1] (noteToOsc1.osc_idx.getD (-1)) = [1]
      from by decide]
    rw [if_neg (by simp)]
    simp only [mixNotes]
    rw [renderOscs]
    simp only [renderOscsGo]
    rw [show (cgTwoOsc.oscillators)[1]? = some flatOsc from rfl]
    simp only [renderOscsGo]
    have hgen := generate_samples_flatOsc (26163/100 * 2 ^ ((4 : ℤ) - 4 + noteToOsc1.octave_adjust))
      (noteDurationMs noteToOsc1 120 1)
    rw [noteDurationMs_noteToOsc1] at hgen
    rw [noteDurationMs_noteToOsc1, hgen]
    rw [show numSamples 1 = 44 from by decide]
    rw [addInto_replicate_zero_left _ 44 (by rw [addInto_length]; simp),
      addInto_replicate_zero_left _ 44 (by simp)]
  rw [hmix]
  have hpeak : maxAbs (List.replicate 44 (1 : ℝ)) = 1 :=
    maxAbs_replicate 44 1 zero_le_one (by norm_num)
  rw [normalizeBuf_id_of_peak_le_one _ (le_of_eq hpeak)]
  rw [show applyFade (List.replicate 44 (1 : ℝ)) 0 = List.replicate 44 1 from by
    rw [applyFade, if_neg (by norm_num)]]
  rw [show cgTwoOsc.sound_mode = "mono" from rfl, toStereo, if_pos rfl]
  simp

lemma generate_chord_cgOneOsc :
    (generate_chord cgOneOsc 4 [noteToOsc1] 1 0 1 false 1 120).1 =
      ChordOutput.stereo (List.replicate 44 (0, 0)) := by
  rw [generate_chord, if_neg (by simp)]
  simp only [if_neg (show cgOneOsc.oscillators ≠ [] by simp [cgOneOsc])]
  have hN : numSamples (1 + 0) = 44 := by decide
  rw [hN]
  have hmix : (mixNotes (effectiveIdxs cgOneOsc.oscillators 1) 1 4 120 1 44 [noteToOsc1]
      (List.replicate 44 0, cgOneOsc.oscillators)).1 = List.replicate 44 0 := by
    simp only [mixNotes]
    rw [show noteFreqBase noteToOsc1.pitch = some (26163/100) from rfl]
    simp only []
    rw [show resolveNoteOscs cgOneOsc.oscillators 1 (effectiveIdxs cgOneOsc.oscillators 1)
      (noteToOsc1.osc_idx.getD (-1)) = [] from by decide]
    simp only [reduceIte, mixNotes]
  rw [hmix, normalizeBuf_replicate_zero, applyFade_replicate_zero,
    toStereo_replicate_zero]
  simp

/-! ### Claim C3 -/

/-- C3 (amended): when a solo index `k` is set and oscillator `k` is
enabled, `generate_chord` output is unchanged under toggling the
enabled/disabled flags of the other oscillators; and, provided every note
is routed to master/all, the output also equals that of the collection
holding only oscillator `k`. (Notes assigned to a specific oscillator index
are resolved positionally, so reducing the collection can change them -
see the counterexample.) -/
theorem spec2proof_c3_solo_noninterference (cg cg' : ChordGenerator) (k : ℕ)
    (mo : ℤ) (notes : List NoteData) (d f : ℕ) (v : ℚ) (m : Bool) (bpm : ℚ)
    (hk : k < cg.oscillators.length)
    (hen : (cg.oscillators.getD k defaultOscillator).enabled = true)
    (hmode : cg'.sound_mode = cg.sound_mode)
    (hR : soloEquiv k cg.oscillators cg'.oscillators) :
    (generate_chord cg mo notes d f v m (k : ℤ) bpm).1 =
      (generate_chord cg' mo notes d f v m (k : ℤ) bpm).1 ∧
    ((∀ note ∈ notes, note.osc_idx.getD (-1) = -1) →
      (generate_chord cg mo notes d f v m (k : ℤ) bpm).1 =
        (generate_chord
          (ChordGenerator.mk [cg.oscillators.getD k defaultOscillator] cg.sound_mode)
          mo notes d f v m (k : ℤ) bpm).1) := by
  have hk' : k < cg'.oscillators.length := hR.1 ▸ hk
  have hen' : (cg'.oscillators.getD k defaultOscillator).enabled = true := by
    rw [← soloEquiv_getD_k hR hk]; exact hen
  constructor
  · by_cases hne : notes = []
    · subst hne
      rw [generate_chord, if_pos rfl, generate_chord, if_pos rfl]
    · rw [generate_chord, if_neg hne, generate_chord, if_neg hne]
      simp only [if_neg (List.ne_nil_of_length_pos
          (show 0 < cg.oscillators.length by omega)),
        if_neg (List.ne_nil_of_length_pos
          (show 0 < cg'.oscillators.length by omega))]
      rw [effectiveIdxs_solo cg.oscillators k hk hen,
        effectiveIdxs_solo cg'.oscillators k hk' hen']
      have hmixeq := mixNotes_soloEquiv k mo bpm d (numSamples (d + f)) notes
        cg.oscillators cg'.oscillators (List.replicate (numSamples (d + f)) 0) hR hk
      rw [hmixeq.1, hmode]
  · intro hmaster
    by_cases hne : notes = []
    · subst hne
      rw [generate_chord, if_pos rfl, generate_chord, if_pos rfl]
    · rw [generate_chord, if_neg hne, generate_chord, if_neg hne]
      simp only [if_neg (List.ne_nil_of_length_pos
          (show 0 < cg.oscillators.length by omega)),
        if_neg (show ([cg.oscillators.getD k defaultOscillator] : List Oscillator) ≠ []
          by simp)]
      rw [effectiveIdxs_solo cg.oscillators k hk hen,
        effectiveIdxs_singleton (cg.oscillators.getD k defaultOscillator) k hen]
      have hrel : singleRel k cg.oscillators [cg.oscillators.getD k defaultOscillator] := by
        refine ⟨rfl, hk, ?_⟩
        rw [List.getElem?_eq_getElem hk, List.getD_eq_getElem cg.oscillators _ hk]
        rfl
      have hmixeq := mixNotes_singleRel k mo bpm d (numSamples (d + f)) notes hmaster
        cg.oscillators [cg.oscillators.getD k defaultOscillator]
        (List.replicate (numSamples (d + f)) 0) hrel
      rw [hmixeq.1]

/-- C3 counterexample: with collection `[disabled osc, flat osc]`, solo
index 1 (enabled), and the single note assigned to oscillator index 1, the
full collection renders a buffer of ones, while the collection holding only
the soloed oscillator renders silence (the note's positional index 1 is out
of range there) - so the outputs are NOT identical, refuting the claim's
"identical to the output produced with only oscillator k present". -/
theorem spec2proof_c3_counterexample :
    (generate_chord cgTwoOsc 4 [noteToOsc1] 1 0 1 false 1 120).1 =
      ChordOutput.stereo (List.replicate 44 (1, 1)) ∧
    (generate_chord cgOneOsc 4 [noteToOsc1] 1 0 1 false 1 120).1 =
      ChordOutput.stereo (List.replicate 44 (0, 0)) ∧
    (generate_chord cgTwoOsc 4 [noteToOsc1] 1 0 1 false 1 120).1 ≠
      (generate_chord cgOneOsc 4 [noteToOsc1] 1 0 1 false 1 120).1 := by
  refine ⟨generate_chord_cgTwoOsc, generate_chord_cgOneOsc, ?_⟩
  rw [generate_chord_cgTwoOsc, generate_chord_cgOneOsc]
  intro hcontra
  have hbuf : List.replicate 44 ((1 : ℝ), (1 : ℝ)) = List.replicate 44 ((0 : ℝ), (0 : ℝ)) := by
    injection hcontra
  have hhead := List.replicate_right_inj (by norm_num : (44 : ℕ) ≠ 0) |>.mp hbuf
  exact one_ne_zero (congrArg Prod.fst hhead)

/-- A note routed to master/all (no `osc_idx` key, no `beat_length` key). -/
def noteMaster : NoteData :=
  { pitch := "C", octave_adjust := 0, osc_idx := none, beat_length := none }

/-- `cgTwoOsc` with the non-soloed oscillator enabled instead of disabled. -/
def cgTwoOscOn : ChordGenerator :=
  { oscillators := [flatOsc, flatOsc], sound_mode := "mono" }

/-- C3 witness: the solo-noninterference theorem applied to the concrete
two-oscillator collections that differ only in oscillator 0's enabled flag,
with a master-routed note. -/
theorem spec2proof_c3_witness :
    (generate_chord cgTwoOsc 4 [noteMaster] 1 0 1 false ((1 : ℕ) : ℤ) 120).1 =
      (generate_chord cgTwoOscOn 4 [noteMaster] 1 0 1 false ((1 : ℕ) : ℤ) 120).1 ∧
    (generate_chord cgTwoOsc 4 [noteMaster] 1 0 1 false ((1 : ℕ) : ℤ) 120).1 =
      (generate_chord
        (ChordGenerator.mk [cgTwoOsc.oscillators.getD 1 defaultOscillator]
          cgTwoOsc.sound_mode)
        4 [noteMaster] 1 0 1 false ((1 : ℕ) : ℤ) 120).1 := by
  have hR : soloEquiv 1 cgTwoOsc.oscillators cgTwoOscOn.oscillators := by
    refine ⟨rfl, fun i hi => ⟨fun hik => ?_, fun hik => ?_⟩⟩
    · subst hik; rfl
    · have hi2 : i < 2 := hi
      have : i = 0 := by omega
      subst this; rfl
  have h := spec2proof_c3_solo_noninterference cgTwoOsc cgTwoOscOn 1 4 [noteMaster]
    1 0 1 false 120 (by decide) (by decide) rfl hR
  exact ⟨h.1, h.2 (by decide)⟩

/-! ### Claim C4 -/

/-- C4: the peak-normalization step of `generate_chord` - when the mixed
buffer's peak exceeds 1.0 the whole buffer is divided by the peak and the
post-normalization peak is exactly 1; when the peak is at most 1.0 the
buffer is unchanged. -/
theorem spec2proof_c4_peak_normalization (l : List ℝ) :
    (1 < maxAbs l → maxAbs (normalizeBuf l) = 1 ∧
      normalizeBuf l = l.map (fun x => x / maxAbs l)) ∧
    (maxAbs l ≤ 1 → normalizeBuf l = l) :=
  ⟨fun h => ⟨maxAbs_normalizeBuf_of_peak_gt_one l h, normalizeBuf_of_peak_gt_one l h⟩,
    normalizeBuf_id_of_peak_le_one l⟩

/-- C4 witness: a clipping buffer `[2, 0]` is normalized to peak exactly 1,
and a non-clipping buffer `[1/2]` is left unchanged. -/
theorem spec2proof_c4_witness :
    maxAbs (normalizeBuf [(2 : ℝ), 0]) = 1 ∧
      normalizeBuf [(1/2 : ℝ)] = [(1/2 : ℝ)] := by
  have h2 : maxAbs [(2 : ℝ), 0] = 2 := by
    rw [maxAbs_cons, maxAbs_cons, maxAbs_nil]
    norm_num
  have hh : maxAbs [(1/2 : ℝ)] = 1/2 := by
    rw [maxAbs_cons, maxAbs_nil]
    norm_num
  exact ⟨((spec2proof_c4_peak_normalization [(2 : ℝ), 0]).1 (by rw [h2]; norm_num)).1,
    (spec2proof_c4_peak_normalization [(1/2 : ℝ)]).2 (by rw [hh]; norm_num)⟩

/-! ### Claim C5 -/

/-- C5 (amended): an empty notes list yields the zero-length buffer; a
non-empty notes list yields a two-channel buffer of
`int(44100·(durationMs+fadeOutMs)/1000)` frames per channel - all-zero when
every oscillator is disabled - EXCEPT in the one branch where the
oscillator collection is empty and the sound mode is `'mono'`, which
returns a one-channel buffer (see the counterexample). -/
theorem spec2proof_c5_buffer_shape (cg : ChordGenerator) (mo : ℤ)
    (notes : List NoteData) (d f : ℕ) (v : ℚ) (mute : Bool) (solo : ℤ) (bpm : ℚ)
    (hne : notes ≠ []) (hok : cg.oscillators ≠ [] ∨ cg.sound_mode ≠ "mono") :
    (generate_chord cg mo [] d f v mute solo bpm).1 = ChordOutput.mono [] ∧
    ∃ buf, (generate_chord cg mo notes d f v mute solo bpm).1 = ChordOutput.stereo buf ∧
      buf.length = numSamples (d + f) ∧
      ((∀ o ∈ cg.oscillators, o.enabled = false) →
        buf = List.replicate (numSamples (d + f)) (0, 0)) := by
  constructor
  · rw [generate_chord, if_pos rfl]
  · by_cases hosc : cg.oscillators = []
    · rcases hok with hok | hok
      · exact absurd hosc hok
      · refine ⟨List.replicate (numSamples (d + f)) (0, 0), ?_, by simp, fun _ => rfl⟩
        rw [generate_chord, if_neg hne]
        simp only [if_pos hosc, if_pos hok]
    · obtain ⟨buf, hbuf, hlen⟩ :=
        generate_chord_main_path cg mo notes d f v mute solo bpm hne hosc
      refine ⟨buf, hbuf, hlen, fun hdis => ?_⟩
      have hz := generate_chord_all_disabled cg mo notes d f v mute solo bpm hne hosc hdis
      rw [hbuf] at hz
      injection hz

/-- C5 counterexample: with an EMPTY oscillator collection in `'mono'` mode
and a non-empty notes list, `generate_chord` returns a one-channel
(1-D numpy) buffer of 48510 zeros, not a two-channel buffer - refuting
"for every non-empty notes list ... it returns a two-channel buffer". -/
theorem spec2proof_c5_counterexample :
    (generate_chord (ChordGenerator.mk [] "mono") 4 [noteMaster] 1000 100 1 false
      (-1) 120).1 = ChordOutput.mono (List.replicate 48510 0) ∧
    ∀ buf, (generate_chord (ChordGenerator.mk [] "mono") 4 [noteMaster] 1000 100 1 false
      (-1) 120).1 ≠ ChordOutput.stereo buf := by
  have h : (generate_chord (ChordGenerator.mk [] "mono") 4 [noteMaster] 1000 100 1 false
      (-1) 120).1 = ChordOutput.mono (List.replicate 48510 0) := by
    rw [generate_chord,
      if_neg (show ([noteMaster] : List NoteData) ≠ [] by simp),
      if_pos (show (ChordGenerator.mk [] "mono").oscillators = [] from rfl),
      if_neg (show ¬ (ChordGenerator.mk [] "mono").sound_mode ≠ "mono" from
        not_not_intro rfl),
      show numSamples (1000 + 100) = 48510 from by decide]
  refine ⟨h, fun buf hcontra => ?_⟩
  rw [h] at hcontra
  exact ChordOutput.noConfusion hcontra

/-- C5 witness: the shape theorem applied to the concrete two-oscillator
generator with the default durations (1000 ms + 100 ms fade = 48510
frames). -/
theorem spec2proof_c5_witness :
    (generate_chord cgTwoOsc 4 [] 1000 100 1 false (-1) 120).1 = ChordOutput.mono [] ∧
    ∃ buf, (generate_chord cgTwoOsc 4 [noteMaster] 1000 100 1 false (-1) 120).1 =
      ChordOutput.stereo buf ∧
      buf.length = numSamples (1000 + 100) ∧
      ((∀ o ∈ cgTwoOsc.oscillators, o.enabled = false) →
        buf = List.replicate (numSamples (1000 + 100)) (0, 0)) :=
  spec2proof_c5_buffer_shape cgTwoOsc 4 [noteMaster] 1000 100 1 false (-1) 120
    (by simp) (Or.inl (by simp [cgTwoOsc]))

/-! ### Claim C7 -/

/-- C7 (amended): rendering's only oscillator-state effect is the
`current_pan := pan` assignment. `generate_samples` returns the oscillator
otherwise unchanged (in particular `frequency` untouched), and
`generate_chord` leaves the sound mode, the collection length, and every
oscillator unchanged except that rendered oscillators get
`current_pan := pan` (every transiently overwritten `frequency` is
restored). -/
theorem spec2proof_c7_render_frame (osc : Oscillator) (dm : ℕ)
    (cg : ChordGenerator) (mo : ℤ) (notes : List NoteData) (d f : ℕ)
    (v : ℚ) (m : Bool) (solo : ℤ) (bpm : ℚ) :
    (generate_samples osc dm).2 = { osc with current_pan := some osc.pan } ∧
    (generate_chord cg mo notes d f v m solo bpm).2.sound_mode = cg.sound_mode ∧
    (generate_chord cg mo notes d f v m solo bpm).2.oscillators.length =
      cg.oscillators.length ∧
    ∀ i : ℕ,
      (generate_chord cg mo notes d f v m solo bpm).2.oscillators[i]? =
        cg.oscillators[i]? ∨
      (generate_chord cg mo notes d f v m solo bpm).2.oscillators[i]? =
        cg.oscillators[i]?.map setPanOsc := by
  refine ⟨generate_samples_snd osc dm, ?_⟩
  by_cases hne : notes = []
  · subst hne
    rw [generate_chord, if_pos rfl]
    exact ⟨rfl, rfl, fun i => Or.inl rfl⟩
  · rw [generate_chord, if_neg hne]
    by_cases hosc : cg.oscillators = []
    · rw [if_pos hosc]
      exact ⟨rfl, rfl, fun i => Or.inl rfl⟩
    · rw [if_neg hosc]
      have hinv := (mixNotes_invariant (effectiveIdxs cg.oscillators solo) solo mo bpm d
        (numSamples (d + f)) notes cg.oscillators
        (List.replicate (numSamples (d + f)) 0) cg.oscillators (by simp)
        (stateRel_refl _)).2
      exact ⟨rfl, hinv.1, hinv.2⟩

/-- C7 counterexample: `generate_samples` does NOT leave every field
unchanged - an oscillator whose `current_pan` is stale (0.3) comes back
with `current_pan = pan = 0.5`, a persistent state change beyond the
documented transient frequency swap. -/
theorem spec2proof_c7_counterexample :
    (generate_samples { defaultOscillator with current_pan := some (3/10) } 5).2 ≠
      { defaultOscillator with current_pan := some (3/10) } ∧
    (generate_samples { defaultOscillator with current_pan := some (3/10) } 5).2 =
      { defaultOscillator with current_pan := some (1/2) } := by
  constructor
  · rw [generate_samples_snd]
    intro h
    have hco := congrArg Oscillator.current_pan h
    have hpan : ({ defaultOscillator with current_pan := some (3/10) } : Oscillator).pan
        = 1/2 := rfl
    rw [hpan] at hco
    simp only [Option.some.injEq] at hco
    norm_num at hco
  · rw [generate_samples_snd]
    rfl

/-! ### Claim C8 -/

lemma rawSamples_of_empty_points (osc : Oscillator) (d n : ℕ) (freq : ℝ)
    (hpts : osc.live_edit_points = []) :
    rawSamples osc d n freq = rawSamples { osc with is_live_editing := false } d n freq := by
  rw [rawSamples, rawSamples, if_neg (fun h => h.2 hpts), if_neg (by simp)]
  have hlk : lookupWaveDef { osc with is_live_editing := false } = lookupWaveDef osc := rfl
  rw [hlk]

lemma customSamples_nil (amp phase : ℚ) (d n : ℕ) (freq : ℝ) :
    customSamples [] amp phase d n freq = List.replicate n 0 := by
  simp [customSamples]

/-- C8 (amended): `generate_samples` degrades the documented numeric edge
cases as follows - a custom waveform with an empty harmonic list yields an
all-zero buffer, but an active live-edit override with a ZERO-LENGTH point
array is simply ignored: the oscillator renders exactly as if live editing
were off, falling back to its named waveform selection (which need not be
silent - see the counterexample). -/
theorem spec2proof_c8_edge_cases :
    (∀ (osc : Oscillator) (d : ℕ), osc.live_edit_points = [] →
      (generate_samples osc d).1 =
        (generate_samples { osc with is_live_editing := false } d).1) ∧
    (∀ (osc : Oscillator) (d : ℕ),
      (osc.is_live_editing = false ∨ osc.live_edit_points = []) →
      lookupWaveDef osc = some (WaveDef.custom []) →
      (generate_samples osc d).1 = List.replicate (numSamples d) 0) := by
  constructor
  · intro osc d hpts
    simp only [generate_samples]
    rw [rawSamples_of_empty_points osc d _ _ hpts]
    rfl
  · intro osc d hlive hdef
    apply generate_samples_zero_raw
    rw [rawSamples, if_neg (by rcases hlive with h | h <;> simp [h]), hdef]
    exact customSamples_nil _ _ _ _ _

/-- An oscillator with an ACTIVE live-edit override whose point array is
empty, selecting a sculpted constant-1 waveform (flat envelope/filter/EQ). -/
def oscEmptyOverride : Oscillator :=
  { flatOsc with
      live_edit_points := [], waveform := "flat",
      waveform_definitions := [("flat", WaveDef.sculpted [1])] }

/-- C8 counterexample: with the live-edit override active but zero-length,
`generate_samples` renders the named waveform - a buffer of 44 ones for a
1 ms render - NOT an all-zero buffer, refuting "an active live-edit
override whose point array is zero-length yields an all-zero buffer". -/
theorem spec2proof_c8_counterexample :
    (generate_samples oscEmptyOverride 1).1 = List.replicate 44 1 ∧
    (generate_samples oscEmptyOverride 1).1 ≠ List.replicate (numSamples 1) 0 := by
  have h : (generate_samples oscEmptyOverride 1).1 = List.replicate (numSamples 1) 1 := by
    refine generate_samples_of_raw_one _ 1 rfl rfl rfl rfl rfl rfl ?_ ?_
    · intro i
      show (List.replicate 8 (0 : ℚ)).getD i 0 = 0
      rcases lt_or_ge i 8 with hi | hi
      · rw [List.getD_eq_getElem _ _ (by simpa using hi)]
        exact List.eq_of_mem_replicate (List.getElem_mem _)
      · rw [List.getD_eq_default _ _ (by simpa using hi)]
    · rw [rawSamples, if_neg (by simp [oscEmptyOverride]),
        show lookupWaveDef oscEmptyOverride = some (WaveDef.sculpted [1]) from rfl]
      dsimp only
      rw [if_pos (by simp : ([1] : List ℚ) ≠ []), pointSamples,
        if_pos (show ([1] : List ℚ).length = 1 from rfl)]
      simp [oscEmptyOverride, flatOsc]
  rw [show numSamples 1 = 44 from by decide] at h
  refine ⟨h, ?_⟩
  rw [h, show numSamples 1 = 44 from by decide]
  intro hcontra
  have := List.replicate_right_inj (by norm_num : (44 : ℕ) ≠ 0) |>.mp hcontra
  exact one_ne_zero this

/-- An oscillator selecting a custom waveform whose harmonic list is empty. -/
def oscEmptyHarmonics : Oscillator :=
  { defaultOscillator with
      waveform := "hollow",
      waveform_definitions := [("hollow", WaveDef.custom [])] }

/-- C8 witness: the edge-case theorem applied to (i) the zero-length
override oscillator and (ii) the empty-harmonics oscillator. -/
theorem spec2proof_c8_witness :
    (generate_samples oscEmptyOverride 1).1 =
      (generate_samples { oscEmptyOverride with is_live_editing := false } 1).1 ∧
    (generate_samples oscEmptyHarmonics 1).1 = List.replicate (numSamples 1) 0 :=
  ⟨spec2proof_c8_edge_cases.1 oscEmptyOverride 1 rfl,
    spec2proof_c8_edge_cases.2 oscEmptyHarmonics 1 (Or.inl rfl) rfl⟩

/-! ### Claim C6 -/

/-- C6 (amended): for a note with a known pitch the rendered frequency is
`base · 2^(masterOctave - 4 + octaveAdjust)`; the note's beat length
defaults to 1.0 BEAT when unspecified (not to the step's own duration),
and the rendered duration is `max(1, int(min(beatLength·60000/bpm,
durationMs)))`. -/
theorem spec2proof_c6_note_resolution (note : NoteData) (bpm : ℚ) (d : ℕ)
    (hbl : note.beat_length = none) :
    noteDurationMs note bpm d =
      (max 1 (pyIntQ (min (60000 / bpm) (d : ℚ)))).toNat ∧
    ∀ (pitch : String) (base : ℚ) (mo adj : ℤ), noteFreqBase pitch = some base →
      noteFreq pitch mo adj = some (base * 2 ^ (mo - 4 + adj)) := by
  constructor
  · simp [noteDurationMs, hbl]
  · intro pitch base mo adj h
    simp [noteFreq, h]

/-- C6 counterexample: a note with no beat length inside a 2-beat step
(`durationMs = 1000` at 120 bpm): the spec's rule (default = the step's
own duration in beats) yields 1000 ms, but the code's default of 1.0 beat
yields 500 ms. -/
theorem spec2proof_c6_counterexample :
    noteDurationMs noteMaster 120 1000 = 500 ∧
    spec_noteDurationMs noteMaster 2 120 1000 = 1000 ∧
    ((noteDurationMs noteMaster 120 1000 : ℚ) ≠ spec_noteDurationMs noteMaster 2 120 1000) := by
  refine ⟨?_, ?_, ?_⟩
  · norm_num [noteDurationMs, noteMaster, pyIntQ]
    decide
  · norm_num [spec_noteDurationMs, noteMaster]
  · norm_num [noteDurationMs, spec_noteDurationMs, noteMaster, pyIntQ,
      show Int.toNat 500 = 500 from by decide]

/-- C6 witness: the note-resolution theorem instantiated at the concrete
master note, 120 bpm, 1000 ms, and pitch A at master octave 5 with
octave adjust 1. -/
theorem spec2proof_c6_witness :
    noteDurationMs noteMaster 120 1000 =
      (max 1 (pyIntQ (min (60000 / 120) ((1000 : ℕ) : ℚ)))).toNat ∧
    noteFreq "A" 5 1 = some (440 * 2 ^ ((5 : ℤ) - 4 + 1)) := by
  have h := spec2proof_c6_note_resolution noteMaster 120 1000 rfl
  exact ⟨h.1, h.2 "A" 440 5 1 rfl⟩

/-! ### Claims C2 and C10 -/

/-- C2 (amended): for every step played while Playing with a non-empty
step, `play_next_step` renders with
`duration_ms = int(60000/bpm · duration)` (TRUNCATED, not rounded),
`fade_out_ms = int(min(100, (60000/bpm)/4))` (the crossfade is computed
from ONE BEAT, not from the step duration), advances the step index, and
schedules the next invocation after
`max(1, int(60000/bpm · duration) - int(min(100, (60000/bpm)/4)))` ms. -/
theorem spec2proof_c2_step_advance (st : SeqState) (v : ℚ) (m : Bool) (solo : ℤ)
    (hp : st.is_playing = true) (hlt : st.current_step < st.sequence.length)
    (hnotes : (st.sequence.getD st.current_step defaultStep).notes_data ≠ []) :
    play_next_step st v m solo =
      (StepAction.play
        { master_octave := (st.sequence.getD st.current_step defaultStep).master_octave
          notes_data := (st.sequence.getD st.current_step defaultStep).notes_data
          duration_ms := (get_step_duration_ms st.bpm
            (st.sequence.getD st.current_step defaultStep).duration).toNat
          fade_out_ms := (pyIntQ (min 100 (60000 / st.bpm / 4))).toNat
          master_volume := v
          master_mute := m
          soloed_osc_idx := solo
          bpm := 120 }
        (max 1 (get_step_duration_ms st.bpm
            (st.sequence.getD st.current_step defaultStep).duration -
          pyIntQ (min 100 (60000 / st.bpm / 4)))).toNat,
       { st with current_step := st.current_step + 1 }) := by
  rw [play_next_step, if_neg (by rw [hp]; simp; omega), if_neg hnotes]

/-- The concrete sequencer state for the C2 counterexample: one step of
0.3335 beats at 120 bpm. -/
def stC2 : SeqState :=
  { sequence := [{ master_octave := 4, duration := 667/2000, notes_data := [noteMaster] }]
    bpm := 120
    current_step := 0
    is_playing := true }

/-- C2 counterexample: at 120 bpm with a 0.3335-beat step, the code
truncates `500 · 0.3335 = 166.75` to a 166 ms render (the claim's
`round` gives 167) and uses `crossfadeMs = min(100, 500/4) = 100` (the
claim's `min(100, stepDurationMs/4)` gives `167/4 = 41.75`), scheduling
the next step after `max(1, 166 - 100) = 66` ms. -/
theorem spec2proof_c2_counterexample :
    (play_next_step stC2 1 false (-1)).1 =
      StepAction.play
        { master_octave := 4, notes_data := [noteMaster], duration_ms := 166,
          fade_out_ms := 100, master_volume := 1, master_mute := false,
          soloed_osc_idx := -1, bpm := 120 } 66 ∧
    spec_stepDurationMs 120 (667/2000) = 167 ∧
    spec_crossfadeMs 120 (667/2000) = 167/4 ∧
    (166 : ℤ) ≠ spec_stepDurationMs 120 (667/2000) ∧
    (100 : ℚ) ≠ spec_crossfadeMs 120 (667/2000) := by
  have hstep : spec_stepDurationMs 120 (667/2000) = 167 := by
    rw [spec_stepDurationMs]
    norm_num
  have hcross : spec_crossfadeMs 120 (667/2000) = 167/4 := by
    rw [spec_crossfadeMs, hstep]
    norm_num
  refine ⟨?_, hstep, hcross, by rw [hstep]; norm_num, by rw [hcross]; norm_num⟩
  rw [play_next_step, if_neg (by norm_num [stC2]),
    if_neg (show (stC2.sequence.getD stC2.current_step defaultStep).notes_data ≠ []
      by simp [stC2, List.getD])]
  have hdur : get_step_duration_ms stC2.bpm
      (stC2.sequence.getD stC2.current_step defaultStep).duration = 166 := by
    norm_num [get_step_duration_ms, stC2, List.getD, pyIntQ]
  have hcf : pyIntQ (min 100 (60000 / stC2.bpm / 4)) = 100 := by
    norm_num [stC2, pyIntQ]
  simp only [hdur, hcf]
  norm_num [stC2, List.getD]
  decide

/-- C2 witness: the amended step-advance theorem applied at the concrete
state `stC2`. -/
theorem spec2proof_c2_witness :
    play_next_step stC2 1 false (-1) =
      (StepAction.play
        { master_octave := (stC2.sequence.getD stC2.current_step defaultStep).master_octave
          notes_data := (stC2.sequence.getD stC2.current_step defaultStep).notes_data
          duration_ms := (get_step_duration_ms stC2.bpm
            (stC2.sequence.getD stC2.current_step defaultStep).duration).toNat
          fade_out_ms := (pyIntQ (min 100 (60000 / stC2.bpm / 4))).toNat
          master_volume := 1
          master_mute := false
          soloed_osc_idx := -1
          bpm := 120 }
        (max 1 (get_step_duration_ms stC2.bpm
            (stC2.sequence.getD stC2.current_step defaultStep).duration -
          pyIntQ (min 100 (60000 / stC2.bpm / 4)))).toNat,
       { stC2 with current_step := stC2.current_step + 1 }) :=
  spec2proof_c2_step_advance stC2 1 false (-1) rfl (by norm_num [stC2])
    (by simp [stC2, List.getD])

/-- C10: `play_next_step` invokes `generate_chord` without a `bpm`
argument, so the call record carries the generator's Python default
`bpm = 120` regardless of the sequencer's configured tempo, and the
per-note duration clamp inside the rendered chord therefore uses
`msPerBeat = 60000/120 = 500` ms. -/
theorem spec2proof_c10_default_bpm (st : SeqState) (v : ℚ) (m : Bool) (solo : ℤ)
    (hp : st.is_playing = true) (hlt : st.current_step < st.sequence.length)
    (hnotes : (st.sequence.getD st.current_step defaultStep).notes_data ≠ []) :
    ∃ call delay st2, play_next_step st v m solo = (StepAction.play call delay, st2) ∧
      call.bpm = 120 ∧
      ∀ note : NoteData, noteDurationMs note call.bpm call.duration_ms =
        (max 1 (pyIntQ (min ((note.beat_length.getD 1) * 500)
          ((call.duration_ms : ℕ) : ℚ)))).toNat := by
  rw [play_next_step, if_neg (by rw [hp]; simp; omega), if_neg hnotes]
  refine ⟨_, _, _, rfl, rfl, fun note => ?_⟩
  rw [noteDurationMs]
  norm_num

/-- C10 witness: at the concrete state `stC2` (whose sequencer bpm is
120 but could be anything), the rendered call's bpm is 120 and the clamp
uses 500 ms per beat. -/
theorem spec2proof_c10_witness :
    ∃ call delay st2, play_next_step stC2 1 false (-1) = (StepAction.play call delay, st2) ∧
      call.bpm = 120 ∧
      ∀ note : NoteData, noteDurationMs note call.bpm call.duration_ms =
        (max 1 (pyIntQ (min ((note.beat_length.getD 1) * 500)
          ((call.duration_ms : ℕ) : ℚ)))).toNat :=
  spec2proof_c10_default_bpm stC2 1 false (-1) rfl (by norm_num [stC2])
    (by simp [stC2, List.getD])

/-! ### Claim C9 -/

/-- C9 (amended): `add_oscillator` names the new oscillator
`osc{count+1}`; this preserves name uniqueness exactly when that default
name is not already taken (which holds for add-only histories), and
`remove_oscillator` always preserves uniqueness - but after a removal the
count-based default can collide with an existing name (see the
counterexample). -/
theorem spec2proof_c9_default_names (cg : ChordGenerator) (i : ℤ)
    (hfresh : ("osc" ++ toString (cg.oscillators.length + 1)) ∉
      cg.oscillators.map (fun o => o.name))
    (hnodup : (cg.oscillators.map (fun o => o.name)).Nodup) :
    ((add_oscillator cg).1.oscillators.map (fun o => o.name)) =
      cg.oscillators.map (fun o => o.name) ++
        ["osc" ++ toString (cg.oscillators.length + 1)] ∧
    ((add_oscillator cg).1.oscillators.map (fun o => o.name)).Nodup ∧
    ((remove_oscillator cg i).1.oscillators.map (fun o => o.name)).Nodup := by
  have hmap : ((add_oscillator cg).1.oscillators.map (fun o => o.name)) =
      cg.oscillators.map (fun o => o.name) ++
        ["osc" ++ toString (cg.oscillators.length + 1)] := by
    rw [add_oscillator]
    simp
  refine ⟨hmap, ?_, ?_⟩
  · rw [hmap, List.nodup_append]
    exact ⟨hnodup, List.nodup_singleton _,
      fun a ha hb => by simp at hb; subst hb; exact hfresh ha⟩
  · rw [remove_oscillator]
    split
    · have hsub : ((cg.oscillators.eraseIdx
          (normIdx cg.oscillators.length i).toNat).map (fun o => o.name)).Sublist
          (cg.oscillators.map (fun o => o.name)) :=
        (List.eraseIdx_sublist _ _).map _
      exact hnodup.sublist hsub
    · exact hnodup

/-- C9 counterexample: add, add, remove index 0, add - the third
oscillator is named `osc2` while an oscillator named `osc2` already
exists, so the collection's names are NOT unique. -/
theorem spec2proof_c9_counterexample :
    ((add_oscillator (remove_oscillator
        (add_oscillator (add_oscillator initChordGenerator).1).1 0).1).1.oscillators.map
      (fun o => o.name)) = ["osc2", "osc2"] ∧
    ¬ ((add_oscillator (remove_oscillator
        (add_oscillator (add_oscillator initChordGenerator).1).1 0).1).1.oscillators.map
      (fun o => o.name)).Nodup := by
  constructor
  · rfl
  · decide

/-- C9 witness: the naming theorem applied to the one-oscillator
generator reached by a single add (names `["osc1"]`, fresh default
`"osc2"`). -/
theorem spec2proof_c9_witness :
    (((add_oscillator (add_oscillator initChordGenerator).1).1.oscillators.map
        (fun o => o.name)) =
      (add_oscillator initChordGenerator).1.oscillators.map (fun o => o.name) ++
        ["osc" ++ toString ((add_oscillator initChordGenerator).1.oscillators.length + 1)]) ∧
    ((add_oscillator (add_oscillator initChordGenerator).1).1.oscillators.map
      (fun o => o.name)).Nodup ∧
    ((remove_oscillator (add_oscillator initChordGenerator).1 0).1.oscillators.map
      (fun o => o.name)).Nodup :=
  spec2proof_c9_default_names (add_oscillator initChordGenerator).1 0
    (by decide) (by decide)

/-! ### Claim C1 -/

/-- The one-oscillator collection (default name `osc1`) used for the C1
round-trip check. -/
def oscNamed1 : Oscillator :=
  { defaultOscillator with name := "osc1" }

/-- A one-step sequence whose single note is routed to master/all - the
shape produced by the chord builder's default note data. -/
def seqMasterStep : List Step :=
  [{ master_octave := 4, duration := 1, notes_data := [noteMaster] }]

/-- C1: the sequence text round-trip FAILS on the code. The serializer
writes the token `master` for a master-routed note
(src/sequencer_ui.py line 267), but the parser only accepts
`master/all` for master routing (line 202) and otherwise requires an
existing oscillator name - so parsing the serializer's own output aborts
with "oscillator name not found" instead of reproducing the sequence. -/
theorem spec2proof_c1_roundtrip_fails :
    apply_text_to_sequence [oscNamed1]
        (update_sequence_display [oscNamed1] seqMasterStep) =
      Except.error "oscillator name not found" ∧
    ∀ s, apply_text_to_sequence [oscNamed1]
        (update_sequence_display [oscNamed1] seqMasterStep) ≠ Except.ok s := by
  constructor
  · rfl
  · intro s h
    rw [show apply_text_to_sequence [oscNamed1]
        (update_sequence_display [oscNamed1] seqMasterStep) =
      Except.error "oscillator name not found" from rfl] at h
    exact Except.noConfusion h
